import Mathlib

/-!
Verification development for the finlens retrieval / agent-orchestration core.

This file shallowly embeds the Python source of the repository:
  - backend/core/ai/retrieval/keyword_search.py   (KeywordSearcher)
  - backend/core/ai/vector_db/qdrant_client.py    (QdrantClient post-processing)
  - backend/core/ai/retrieval/retriever.py        (Retriever)
  - backend/core/ai/retrieval/query_processor.py  (year-expansion logic)
  - backend/core/ai/agent/agent1_retrieval/*      (validation / refinement loop)
  - backend/core/ai/agent/agent3_generation/*     (quality check / self-heal loop)
  - backend/config/constants.py, backend/config/settings.py (constant defaults)

External effects (the vector index, LLM calls, embeddings) are modelled as
oracle inputs to the embedded functions; all post-processing logic is
translated statement by statement from the source.

Python floats are modelled as real numbers; Python strings as Lean strings,
with the handful of Python string primitives used by the source re-implemented
structurally (so that they evaluate by kernel reduction).
-/

set_option maxHeartbeats 1600000

namespace FinLens

/-! ### Python string primitives

Structural re-implementations of the Python string operations used by the
source: `str.lower`, `str.replace`, `str.split()` (whitespace split dropping
empties), substring containment (`in`), and slicing `s[:n]`. ASCII model. -/

/-- str.lower (ASCII model). -/
def pyLower (s : String) : String := ⟨s.data.map Char.toLower⟩

/-- str.replace on char lists: replaces non-overlapping occurrences left to
right. The Nat argument is a termination fuel; the wrapper passes the list
length, which always suffices (each step consumes at least one char). -/
def replaceChars (pat repl : List Char) : Nat → List Char → List Char
  | _, [] => []
  | 0, l => l
  | fuel + 1, c :: rest =>
    if pat.isPrefixOf (c :: rest) ∧ pat ≠ [] then
      repl ++ replaceChars pat repl fuel ((c :: rest).drop pat.length)
    else
      c :: replaceChars pat repl fuel rest

/-- str.replace(pat, repl). All patterns used by the source are non-empty. -/
def pyReplace (s pat repl : String) : String :=
  ⟨replaceChars pat.data repl.data s.data.length s.data⟩

/-- Helper for pySplitWs: accumulates the current (reversed) token. -/
def splitWsAux : List Char → List Char → List String
  | acc, [] => if acc.isEmpty then [] else [⟨acc.reverse⟩]
  | acc, c :: rest =>
    if c.isWhitespace then
      (if acc.isEmpty then [] else [(⟨acc.reverse⟩ : String)]) ++ splitWsAux [] rest
    else
      splitWsAux (c :: acc) rest

/-- str.split() with no argument: split on whitespace runs, dropping empties. -/
def pySplitWs (s : String) : List String := splitWsAux [] s.data

/-- Helper for pyContains: contiguous sublist test. -/
def isSubChars (pat : List Char) : List Char → Bool
  | [] => pat.isEmpty
  | c :: rest => pat.isPrefixOf (c :: rest) || isSubChars pat rest

/-- Python `pat in hay` substring test. -/
def pyContains (hay pat : String) : Bool := isSubChars pat.data hay.data

/-- Python slicing s[:n] (here by code points, as in Python). -/
def pyTake (s : String) (n : Nat) : String := ⟨s.data.take n⟩

/-- Python dict-key collection from a list with duplicates: first-occurrence
order, later duplicates dropped (dict insertion semantics). -/
def pyDictKeys (l : List String) : List String :=
  l.foldl (fun acc c => if c ∈ acc then acc else acc ++ [c]) []

/-! ### KeywordSearcher (backend/core/ai/retrieval/keyword_search.py)

The Python sets (`stop_words`, `financial_phrases`, ...) are modelled as lists
in source order; the source iterates these sets in unspecified hash order, but
every property proved below is independent of the iteration order. -/

/-- KeywordSearcher.stop_words. -/
def stop_words : List String :=
  ["the", "a", "an", "and", "or", "but", "in", "on", "at", "to", "for",
   "of", "with", "by", "from", "as", "is", "was", "are", "were", "be",
   "been", "being", "have", "has", "had", "do", "does", "did", "will",
   "would", "should", "could", "may", "might", "must", "can", "this",
   "that", "these", "those", "it", "its", "they", "them", "their",
   "we", "our", "us", "you", "your", "he", "she", "his", "her"]

/-- KeywordSearcher.financial_phrases. -/
def financial_phrases : List String :=
  ["operating income", "net income", "gross profit", "revenue growth",
   "cash flow", "operating cash flow", "free cash flow", "cash flow from operations",
   "total revenue", "net revenue", "gross revenue", "revenue recognition",
   "earnings per share", "diluted eps", "basic eps",
   "return on equity", "return on assets", "return on investment",
   "ebitda", "adjusted ebitda", "non-gaap",
   "cost of revenue", "cost of goods sold", "operating expenses",
   "research and development", "sales and marketing", "general and administrative",
   "total assets", "total liabilities", "shareholders equity", "stockholders equity",
   "working capital", "current assets", "current liabilities",
   "debt to equity", "debt ratio", "leverage ratio",
   "year over year", "quarter over quarter", "sequential growth",
   "fiscal year", "annual report", "quarterly report",
   "amazon web services", "aws", "azure", "google cloud",
   "segment revenue", "geographic revenue", "product revenue", "service revenue"]

/-- KeywordSearcher.financial_abbreviations. -/
def financial_abbreviations : List String :=
  ["gaap", "ifrs", "eps", "ebitda", "roi", "roe", "roa", "pe", "p/e",
   "aws", "azure", "gcp", "ai", "ml", "iot", "saas", "paas", "iaas"]

/-- COMPANIES from backend/config/constants.py (= KeywordSearcher.company_names). -/
def COMPANIES : List String :=
  ["apple", "microsoft", "amazon", "alphabet", "meta", "nvidia", "tesla"]

/-- KeywordSearcher.company_names. -/
def company_names : List String := COMPANIES

/-- KeywordSearcher.financial_metrics. -/
def financial_metrics : List String :=
  ["revenue", "income", "profit", "loss", "earnings", "expenses", "costs",
   "assets", "liabilities", "equity", "debt", "cash", "capital",
   "margin", "ratio", "growth", "decline", "increase", "decrease",
   "million", "billion", "trillion", "percent", "percentage"]

/-- Character class kept by the re.sub in tokenize: word chars, whitespace,
and the financial symbols dollar, percent, dot (underscore is a word char). -/
def keptChar (c : Char) : Bool :=
  c.isAlphanum || c = '_' || c.isWhitespace || c = '$' || c = '%' || c = '.'

/-- KeywordSearcher.tokenize. -/
def tokenize (text : String) : List String :=
  let textLower := pyLower text
  let protectedText :=
    financial_phrases.foldl
      (fun acc phrase => pyReplace acc phrase (pyReplace phrase (" ") ("_"))) textLower
  let cleaned : String := ⟨protectedText.data.map (fun c => if keptChar c then c else ' ')⟩
  let tokens := pySplitWs cleaned
  let filteredTokens := tokens.filterMap (fun t =>
    if t.isEmpty then none
    else if t ∉ stop_words ∨ t ∈ financial_metrics then some (pyReplace t ("_") (" "))
    else none)
  (filteredTokens.map (fun token =>
    if token.data.contains ' ' then
      pyReplace token (" ") ("_") :: pySplitWs token
    else [token])).flatten

/-- KeywordSearcher.extract_phrases. -/
def extract_phrases (text : String) (minLength maxLength : Nat) : List String :=
  let textLower := pyLower text
  let phrases0 := financial_phrases.filter (fun p => pyContains textLower p)
  let tokens := tokenize text
  let cleanTokens :=
    (tokens.filter (fun t =>
      ¬ t.data.contains '_' ∨ pyReplace t ("_") (" ") ∈ financial_phrases)).map
      (fun t => pyReplace t ("_") (" "))
  (List.range' minLength (maxLength + 1 - minLength)).foldl
    (fun phrases len =>
      (List.range (cleanTokens.length + 1 - len)).foldl
        (fun phrases i =>
          let phrase := String.intercalate (" ") ((cleanTokens.drop i).take len)
          if phrase ∈ phrases then phrases else phrases ++ [phrase])
        phrases)
    phrases0

/-- Boost factor per term in calculate_bm25_score. -/
def termBoostOf (cleanTerm : String) : ℝ :=
  if cleanTerm ∈ financial_phrases then 2.0
  else if cleanTerm ∈ financial_metrics then 1.5
  else if cleanTerm ∈ company_names then 1.8
  else if cleanTerm ∈ financial_abbreviations then 1.5
  else if cleanTerm.length = 4 ∧ cleanTerm.data.all Char.isDigit then 1.3
  else 1.0

/-- IDF branch of calculate_bm25_score. Python truthiness: a present but empty
document_freq dict, or total_documents = 0, are falsy. -/
noncomputable def idfOf (documentFreq : Option (List (String × Nat)))
    (totalDocuments : Option Nat) (term : String) : ℝ :=
  match documentFreq with
  | none => Real.log 10.0
  | some df =>
    if df ≠ [] ∧ (df.lookup term).isSome then
      let dfv : ℝ := ((df.lookup term).getD 0 : Nat)
      match totalDocuments with
      | some n =>
        if n ≠ 0 then Real.log (((n : ℝ) + 1.0) / (dfv + 1.0))
        else Real.log ((((df.map (fun p => p.2)).foldr max 0 : Nat) + 1.0) / (dfv + 1.0))
      | none =>
        Real.log ((((df.map (fun p => p.2)).foldr max 0 : Nat) + 1.0) / (dfv + 1.0))
    else Real.log 10.0

/-- KeywordSearcher.calculate_bm25_score. The Python set iteration over
unique query terms is modelled by first-occurrence dedup; the resulting sum
is iteration-order independent. -/
noncomputable def calculate_bm25_score (queryTokens documentTokens : List String)
    (documentFreq : Option (List (String × Nat))) (totalDocuments : Option Nat)
    (avgDocLength k1 b : ℝ) : ℝ :=
  if queryTokens = [] ∨ documentTokens = [] then 0.0
  else
    let docLength : ℝ := documentTokens.length
    (pyDictKeys queryTokens).foldl
      (fun score term =>
        let tf := documentTokens.count term
        if tf = 0 then score
        else
          let cleanTerm := pyReplace term ("_") (" ")
          let termBoost := termBoostOf cleanTerm
          let idf := idfOf documentFreq totalDocuments term
          let numerator := idf * (tf : ℝ) * (k1 + 1) * termBoost
          let denominator := (tf : ℝ) + k1 * (1 - b + b * (docLength / avgDocLength))
          score + numerator / denominator)
      0.0

/-- KeywordSearcher.calculate_keyword_relevance. -/
noncomputable def calculate_keyword_relevance (query content : String)
    (usePhrases : Bool) : ℝ :=
  let queryTokens := tokenize query
  let contentTokens := tokenize content
  if queryTokens = [] then 0.0
  else
    let bm25Score := calculate_bm25_score queryTokens contentTokens none none 100.0 1.5 0.75
    let normalizedScore : ℝ := 1.0 / (1.0 + Real.exp (-bm25Score / 10.0))
    let phraseBonus : ℝ :=
      if usePhrases then
        let queryPhrases := extract_phrases query 2 3
        let contentLower := pyLower content
        queryPhrases.foldl
          (fun bonus phrase =>
            if pyContains contentLower phrase then
              if phrase ∈ financial_phrases then bonus + 0.3
              else bonus + ((pySplitWs phrase).length : ℝ) * 0.1
            else bonus)
          0.0
      else 0.0
    min 1.0 (normalizedScore + phraseBonus)

/-! ### Chunks and Python stable sorting

A retrieved chunk; only the fields the embedded post-processing logic touches
are modelled (`content`, metadata `company`, `score`). Python's `list.sort`
with `reverse=True` is a stable descending sort; we embed it as a foldr
insertion sort, which is stable in the same sense. -/

/-- One retrieved chunk (content text, metadata company, relevance score). -/
structure Chunk where
  content : String
  company : String
  score : ℝ

/-- Insert into a descending-sorted list, before the first element with a
key no larger than the inserted one (stability for Python sort). -/
noncomputable def insertDescBy {α : Type} (key : α → ℝ) (x : α) : List α → List α
  | [] => [x]
  | y :: ys => if key y ≤ key x then x :: y :: ys else y :: insertDescBy key x ys

/-- Python list.sort(key=..., reverse=True): stable descending sort. -/
noncomputable def sortDescBy {α : Type} (key : α → ℝ) (l : List α) : List α :=
  l.foldr (insertDescBy key) []

theorem length_insertDescBy {α : Type} (key : α → ℝ) (x : α) (l : List α) :
    (insertDescBy key x l).length = l.length + 1 := by
  induction l with
  | nil => rfl
  | cons y ys ih =>
    by_cases h : key y ≤ key x
    · simp [insertDescBy, h]
    · simp [insertDescBy, h, ih]

theorem length_sortDescBy {α : Type} (key : α → ℝ) (l : List α) :
    (sortDescBy key l).length = l.length := by
  induction l with
  | nil => rfl
  | cons y ys ih => simp [sortDescBy, List.foldr] at ih ⊢; rw [length_insertDescBy, ih]

theorem perm_insertDescBy {α : Type} (key : α → ℝ) (x : α) (l : List α) :
    (insertDescBy key x l).Perm (x :: l) := by
  induction l with
  | nil => exact List.Perm.refl _
  | cons y ys ih =>
    by_cases h : key y ≤ key x
    · simp [insertDescBy, h]
    · simp only [insertDescBy, h, if_false]
      exact ((ih.cons y).trans (List.Perm.swap x y ys))

theorem perm_sortDescBy {α : Type} (key : α → ℝ) (l : List α) :
    (sortDescBy key l).Perm l := by
  induction l with
  | nil => exact List.Perm.refl _
  | cons y ys ih =>
    exact (perm_insertDescBy key y (sortDescBy key ys)).trans (ih.cons y)

theorem mem_sortDescBy {α : Type} (key : α → ℝ) (l : List α) (a : α) :
    a ∈ sortDescBy key l ↔ a ∈ l :=
  (perm_sortDescBy key l).mem_iff

theorem pairwise_insertDescBy {α : Type} (key : α → ℝ) (x : α) (l : List α)
    (hl : l.Pairwise (fun a b => key b ≤ key a)) :
    (insertDescBy key x l).Pairwise (fun a b => key b ≤ key a) := by
  induction l with
  | nil => simp [insertDescBy]
  | cons y ys ih =>
    rcases List.pairwise_cons.mp hl with ⟨hy, hys⟩
    by_cases h : key y ≤ key x
    · simp only [insertDescBy, if_pos h]
      refine List.pairwise_cons.mpr ⟨?_, hl⟩
      intro b hb
      rcases List.mem_cons.mp hb with rfl | hb2
      · exact h
      · exact le_trans (hy b hb2) h
    · simp only [insertDescBy, if_neg h]
      refine List.pairwise_cons.mpr ⟨?_, ih hys⟩
      intro b hb
      have hb2 : b ∈ x :: ys := (perm_insertDescBy key x ys).mem_iff.mp hb
      rcases List.mem_cons.mp hb2 with rfl | hb3
      · exact le_of_lt (lt_of_not_le h)
      · exact hy b hb3

theorem pairwise_sortDescBy {α : Type} (key : α → ℝ) (l : List α) :
    (sortDescBy key l).Pairwise (fun a b => key b ≤ key a) := by
  induction l with
  | nil => exact List.Pairwise.nil
  | cons y ys ih => exact pairwise_insertDescBy key y _ ih

/-! ### QdrantClient (backend/core/ai/vector_db/qdrant_client.py)

The external Qdrant index call is an oracle: the embedded functions take the
list of chunks the index returned (`raw`) as an input.  All post-processing
(company filtering, per-company normalization, balancing, hybrid scoring) is
translated from the source.  Each function returns the number of index calls
it performed, and the `user_id` guard is an `Except.error`. -/

/-- Default of settings.TOP_K_INITIAL. -/
def TOP_K_INITIAL : Nat := 30

/-- Default of settings.TOP_K_FINAL. -/
def TOP_K_FINAL : Nat := 8

/-- Default of settings.HYBRID_SEARCH_ALPHA. -/
noncomputable def HYBRID_SEARCH_ALPHA : ℝ := 0.7

/-- Per-company z-score step of _normalize_scores_per_company (the body of
the loop over one company group; empty groups are skipped by the caller). -/
noncomputable def normGroup (group : List Chunk) : List Chunk :=
  match group with
  | [] => []
  | _ =>
    let scores := group.map (fun r => r.score)
    let meanScore := scores.sum / (scores.length : ℝ)
    let stdScore := Real.sqrt ((scores.map (fun s => (s - meanScore) ^ 2)).sum / (scores.length : ℝ))
    if stdScore > 0 then
      group.map (fun r => { r with score := (r.score - meanScore) / stdScore })
    else
      group.map (fun r => { r with score := 0.0 })

/-- QdrantClient._normalize_scores_per_company: z-score normalize scores
within each target company's subset and concatenate the groups in dict
insertion order (first-occurrence order of the lowercased target list). -/
noncomputable def normalize_scores_per_company (results : List Chunk)
    (targetCompanies : List String) : List Chunk :=
  let targetsLower := targetCompanies.map pyLower
  ((pyDictKeys targetsLower).map (fun company =>
    normGroup (results.filter (fun r => pyLower r.company == company)))).flatten

/-- Mutable state of the round-robin loop in _balance_results. -/
structure BalSt where
  balanced : List Chunk
  taken : String → Nat
  remainder : Nat

/-- One company step of the round-robin loop in _balance_results.  The
source's `break` statements (inner and outer, on `len(balanced) >= top_k`)
are modelled by the leading length guard: once the guard holds it holds for
every later step, so guarding each step yields the same balanced list. -/
noncomputable def balStep (rbc : String → List Chunk) (perCompanyK topK roundIdx : Nat)
    (st : BalSt) (company : String) : BalSt :=
  if topK ≤ st.balanced.length then st
  else
    match (rbc company)[roundIdx]? with
    | none => st
    | some chunk =>
      if st.taken company < perCompanyK then
        { balanced := st.balanced ++ [chunk],
          taken := fun c => if c = company then st.taken company + 1 else st.taken c,
          remainder := st.remainder }
      else if 0 < st.remainder ∧ st.taken company = perCompanyK then
        { balanced := st.balanced ++ [chunk],
          taken := fun c => if c = company then st.taken company + 1 else st.taken c,
          remainder := st.remainder - 1 }
      else st

/-- QdrantClient._balance_results: group by (lowercased) company, sort each
group by score descending, then round-robin one pick per company per round,
respecting the per-company share and the remainder budget, and truncate to
top_k.  The final list is returned without re-sorting. -/
noncomputable def balance_results (results : List Chunk) (targetCompanies : List String)
    (topK : Nat) : List Chunk :=
  let targetsLower := targetCompanies.map pyLower
  let rbc : String → List Chunk := fun c =>
    sortDescBy (fun r => r.score) (results.filter (fun r => pyLower r.company == c))
  let perCompanyK := max 1 (topK / targetsLower.length)
  let remainder0 := topK % targetsLower.length
  let maxAvailable := (targetsLower.map (fun c => (rbc c).length)).foldr max 0
  let finalSt :=
    (List.range maxAvailable).foldl
      (fun st roundIdx => targetsLower.foldl (balStep rbc perCompanyK topK roundIdx) st)
      { balanced := [], taken := fun _ => 0, remainder := remainder0 }
  finalSt.balanced.take topK

/-- Target-company resolution shared by search and hybrid_search:
`companies` takes priority over `company`; entries are lowercased. -/
def targetCompaniesOf (company : Option String) (companies : List String) : List String :=
  if companies ≠ [] then companies.map pyLower
  else
    match company with
    | some c => [pyLower c]
    | none => []

/-- QdrantClient.search, post-index processing.  `raw` is the oracle response
of the external index for the built filter and limit (the source requests
limit top_k*3 when more than one target company is present).  The returned
Nat counts index calls; the user_id guard raises before any call. -/
noncomputable def QdrantClient.search (userId : String) (raw : List Chunk)
    (company : Option String) (companies : List String) (topK : Nat) :
    Except String (List Chunk) × Nat :=
  if userId.isEmpty then (Except.error ("user_id is required for search"), 0)
  else
    let targetCompanies := targetCompaniesOf company companies
    let results :=
      if companies ≠ [] then
        raw.filter (fun r => pyLower r.company ∈ companies.map pyLower)
      else raw
    if 1 < targetCompanies.length then
      (Except.ok (balance_results (normalize_scores_per_company results targetCompanies)
        targetCompanies topK), 1)
    else
      (Except.ok ((sortDescBy (fun r => r.score) results).take topK), 1)

/-- QdrantClient.hybrid_search: semantic search (with tripled top_k for
multi-company queries), keyword scoring via calculate_keyword_relevance,
alpha-weighted combination, then per-company normalization and balancing
(multi-company) or sort-and-truncate (otherwise). -/
noncomputable def QdrantClient.hybrid_search (userId : String) (raw : List Chunk)
    (queryText : String) (company : Option String) (companies : List String)
    (topK : Nat) (alpha : ℝ) : Except String (List Chunk) × Nat :=
  if userId.isEmpty then (Except.error ("user_id is required for hybrid_search"), 0)
  else
    let targetCompanies := targetCompaniesOf company companies
    let semTopK := if 1 < targetCompanies.length then topK * 3 else topK
    match QdrantClient.search userId raw company companies semTopK with
    | (Except.error e, n) => (Except.error e, n)
    | (Except.ok semanticResults, n) =>
      if queryText.isEmpty then (Except.ok (semanticResults.take topK), n)
      else
        let scoredResults := semanticResults.map (fun chunk =>
          let semanticScore := chunk.score
          let keywordScore := calculate_keyword_relevance queryText chunk.content true
          let normalizedSemantic :=
            if semanticScore < 0 then max 0.0 (min 1.0 ((semanticScore + 1) / 2))
            else semanticScore
          { chunk with score := alpha * normalizedSemantic + (1 - alpha) * keywordScore })
        if 1 < targetCompanies.length then
          (Except.ok (balance_results (normalize_scores_per_company scoredResults targetCompanies)
            targetCompanies topK), n)
        else
          (Except.ok ((sortDescBy (fun r => r.score) scoredResults).take topK), n)

/-! ### Retriever (backend/core/ai/retrieval/retriever.py) -/

/-- Retriever._rerank_with_keywords: compute a blended rerank score
(0.6 semantic + 0.4 keyword relevance) per chunk and sort the whole list by
rerank score descending.  Output pairs each chunk with its rerank_score. -/
noncomputable def rerank_with_keywords (results : List Chunk) (queryText : String) :
    List (Chunk × ℝ) :=
  sortDescBy (fun p => p.2)
    (results.map (fun result =>
      let semanticScore := result.score
      let keywordScore := calculate_keyword_relevance queryText result.content true
      let normalizedSemantic :=
        if semanticScore < 0 then max 0.0 (min 1.0 ((semanticScore + 1) / 2))
        else semanticScore
      (result, 0.6 * normalizedSemantic + 0.4 * keywordScore)))

/-- Retriever.retrieve, hybrid path (use_hybrid=True, no cross-encoder — the
defaults).  The query-processing LLM call is an oracle whose augmented output
is `queryText`; `raw` is the vector index oracle response; `company` /
`companies` is the resolved company_filter (string vs. list split as in the
source).  The user_id guard raises before query processing and search; the
returned Nat counts index calls. -/
noncomputable def Retriever.retrieve (userId : String) (queryText : String)
    (raw : List Chunk) (topK : Option Nat) (company : Option String)
    (companies : List String) : Except String (List (Chunk × ℝ)) × Nat :=
  if userId.isEmpty then (Except.error ("user_id is required for retrieval"), 0)
  else
    let topKv := topK.getD TOP_K_FINAL
    match QdrantClient.hybrid_search userId raw queryText company companies
        TOP_K_INITIAL HYBRID_SEARCH_ALPHA with
    | (Except.error e, n) => (Except.error e, n)
    | (Except.ok results, n) =>
      (Except.ok ((rerank_with_keywords results queryText).take topKv), n)

/-! ### Agent 1 retrieval helpers (backend/core/ai/agent/agent1_retrieval/nodes.py) -/

/-- CONTENT_HASH_LENGTH from backend/config/constants.py. -/
def CONTENT_HASH_LENGTH : Nat := 200

/-- DEFAULT_TOP_K from backend/config/constants.py. -/
def DEFAULT_TOP_K : Nat := 8

/-- _deduplicate_chunks: drop chunks whose hash of the first
CONTENT_HASH_LENGTH content characters was already seen.  Python's builtin
`hash` is modelled as an arbitrary function contentHash (equal strings hash
equally; the process-level seed makes nothing else about it observable).
The first argument accumulates the `seen_content` set. -/
def deduplicate_chunks (contentHash : String → Int) : List Int → List Chunk → List Chunk
  | _, [] => []
  | seen, chunk :: rest =>
    let hv := contentHash (pyTake chunk.content CONTENT_HASH_LENGTH)
    if hv ∈ seen then deduplicate_chunks contentHash seen rest
    else chunk :: deduplicate_chunks contentHash (hv :: seen) rest

/-- Pooling step of _retrieve_decomposed_query: deduplicate the chunks
gathered from all sub-queries, then sort by score descending. -/
noncomputable def pool_decomposed_chunks (contentHash : String → Int)
    (allChunks : List Chunk) : List Chunk :=
  sortDescBy (fun r => r.score) (deduplicate_chunks contentHash [] allChunks)

/-! ### Agent 1 validation / refinement loop -/

/-- Loop-relevant channels of the workflow state for Agent 1.  These are the
AgentState (state.py) channels the loop reads and writes; AgentState has no
previous_gaps channel, so no such field exists here. -/
structure RetrievalState where
  retrieval_attempts : Nat
  retrieval_sufficient : Bool
  gaps : List String

/-- A sub-query as seen by decomposed validation: its text, its intent, and
the number of chunks retrieved for that intent. -/
structure SubQueryInfo where
  sub_query : String
  intent : String
  chunkCount : Nat

/-- Gap message of the decomposed validation branch (the source quotes the
sub-query text; the quote characters are elided here). -/
def decomposedGapMessage (subQuery intent : String) (count : Nat) : String :=
  ("Sub-query ") ++ subQuery ++ (" (intent: ") ++ intent ++
    ("): insufficient results (") ++ toString count ++ (" chunks)")

/-- The validation input for one attempt: either the decomposed rule-based
check over sub-query chunk counts, or the single-query LLM verdict
(an oracle: sufficient flag and gap list). -/
inductive ValidationInput where
  | decomposed (subs : List SubQueryInfo)
  | single (llmSufficient : Bool) (llmGaps : List String)

/-- Python `set(a) == set(b)` on string lists. -/
def sameSet (a b : List String) : Bool :=
  a.all (fun x => b.contains x) && b.all (fun x => a.contains x)

/-- validation_node, the node function as written in nodes.py (no-exception
path).  Decomposed branch: a gap per sub-query with fewer than 2 chunks,
sufficient iff no gaps, then the max-attempts force; its returned patch has
no previous_gaps entry (second component none).  Single branch: the LLM
verdict, then the no-progress short-circuit comparing the new gap set with
`previousGaps` — the value the node reads for the previous-gaps key — then
the max-attempts force; its patch carries a previous_gaps entry holding the
new gaps (second component). -/
def validation_node_fn (inp : ValidationInput) (previousGaps : List String)
    (st : RetrievalState) : RetrievalState × Option (List String) :=
  match inp with
  | ValidationInput.decomposed subs =>
    let gaps := subs.filterMap (fun sq =>
      if sq.chunkCount < 2 then
        some (decomposedGapMessage sq.sub_query sq.intent sq.chunkCount)
      else none)
    let sufficient := gaps.length == 0
    let attempts := st.retrieval_attempts + 1
    let sufficient := if 3 ≤ attempts then true else sufficient
    ({ retrieval_attempts := attempts, retrieval_sufficient := sufficient,
       gaps := gaps }, none)
  | ValidationInput.single llmSufficient llmGaps =>
    let attempts := st.retrieval_attempts + 1
    let sufficient :=
      if previousGaps ≠ [] ∧ sameSet llmGaps previousGaps then true
      else llmSufficient
    let sufficient := if 3 ≤ attempts then true else sufficient
    ({ retrieval_attempts := attempts, retrieval_sufficient := sufficient,
       gaps := llmGaps }, some llmGaps)

/-- validation_node at the graph level.  Every workflow graph is built as
StateGraph(AgentState) and AgentState (state.py) has no previous_gaps
channel, so LangGraph never stores that key: the node reads the empty
default for it on every invocation, and the previous_gaps entry of its
returned patch is dropped. -/
def validation_node (inp : ValidationInput) (st : RetrievalState) : RetrievalState :=
  (validation_node_fn inp [] st).1

/-- Route of the conditional edge after validation. -/
inductive RetrievalRoute where
  | refine
  | rend
  deriving DecidableEq

/-- should_continue_retrieval from agent1_retrieval/subgraph.py. -/
def should_continue_retrieval (sufficient : Bool) (attempts : Nat) : RetrievalRoute :=
  if sufficient then RetrievalRoute.rend
  else if 3 ≤ attempts then RetrievalRoute.rend
  else RetrievalRoute.refine

/-- refinement_node, loop-counter view: at the bound it forces sufficiency
(unreachable from the router), otherwise it rewrites the query via the LLM
oracle (not tracked here) and resets retrieval_sufficient so retrieval runs
again.  Attempts and gap lists are not part of its returned patch. -/
def refinement_node (st : RetrievalState) : RetrievalState :=
  if 3 ≤ st.retrieval_attempts then { st with retrieval_sufficient := true }
  else { st with retrieval_sufficient := false }

/-- The retrieval-validation-refinement loop of the Agent 1 subgraph:
retrieve (oracle, no counter effect), validate, route, refine, repeat.
`oracle` supplies the validation input of each attempt (indexed by the number
of validations already performed).  Returns the final state, the number of
validations executed, and whether the loop exited through the router (true)
or ran out of fuel (false). -/
def runRetrievalLoop (oracle : Nat → ValidationInput) :
    Nat → RetrievalState → RetrievalState × Nat × Bool
  | 0, st => (st, 0, false)
  | fuel + 1, st =>
    let st1 := validation_node (oracle st.retrieval_attempts) st
    match should_continue_retrieval st1.retrieval_sufficient st1.retrieval_attempts with
    | RetrievalRoute.rend => (st1, 1, true)
    | RetrievalRoute.refine =>
      let st2 := refinement_node st1
      let res := runRetrievalLoop oracle fuel st2
      (res.1, res.2.1 + 1, res.2.2)

/-- Initial loop state of a fresh workflow run (LangGraph state defaults). -/
def initialRetrievalState : RetrievalState :=
  { retrieval_attempts := 0, retrieval_sufficient := false, gaps := [] }

/-! ### Agent 3 quality check and self-heal loop
(backend/core/ai/agent/agent3_generation/nodes.py, subgraph.py) -/

/-- JSON values, as produced by chart generation. -/
inductive JValue where
  | jnull
  | jbool (b : Bool)
  | jnum (q : ℚ)
  | jstr (s : String)
  | jarr (elems : List JValue)
  | jobj (fields : List (String × JValue))

/-- Chart validation errors of quality_check_node, by chart index (the
source formats messages with the 1-based index; the payload of invalidType
is the offending type value). -/
inductive ChartErr where
  | notObject (idx : Nat)
  | missingType (idx : Nat)
  | invalidType (idx : Nat) (t : JValue)
  | missingData (idx : Nat)
  | dataNotObject (idx : Nat)
  | missingLabelsDatasets (idx : Nat)

/-- The chart type enum accepted by quality_check_node. -/
def valid_chart_types : List String := ["line", "bar", "pie", "doughnut"]

/-- Python equality of a JSON value with a string literal. -/
def jIsStr (v : JValue) (s : String) : Bool :=
  match v with
  | JValue.jstr t => t == s
  | _ => false

/-- Structural validation of one chart in quality_check_node. -/
def checkChart (idx : Nat) (chart : JValue) : List ChartErr :=
  match chart with
  | JValue.jobj fields =>
    let typeErrs :=
      match fields.lookup ("type") with
      | none => [ChartErr.missingType idx]
      | some t =>
        if valid_chart_types.any (fun s => jIsStr t s) then []
        else [ChartErr.invalidType idx t]
    let dataErrs :=
      match fields.lookup ("data") with
      | none => [ChartErr.missingData idx]
      | some d =>
        match d with
        | JValue.jobj dfields =>
          if (dfields.lookup ("labels")).isSome ∧ (dfields.lookup ("datasets")).isSome then []
          else [ChartErr.missingLabelsDatasets idx]
        | _ => [ChartErr.dataNotObject idx]
    typeErrs ++ dataErrs
  | _ => [ChartErr.notObject idx]

/-- The final answer, as far as quality checking sees it: markdown text and
the chart specification list. -/
structure AnswerResponse where
  text : String
  charts : List JValue

/-- All chart errors found by quality_check_node. -/
def quality_check_errors (charts : List JValue) : List ChartErr :=
  (charts.enum.map (fun p => checkChart p.1 p.2)).flatten

/-- quality_check_node (response present): valid iff no chart errors.  Only
`response.charts` is inspected, never `response.text`. -/
def quality_check_node (response : AnswerResponse) : Bool × List ChartErr :=
  let errors := quality_check_errors response.charts
  (errors.isEmpty, errors)

/-- Modelled from the spec words of C7, for comparison with the source-side
quality check: a chart passes iff it is a JSON object whose type is one of
line, bar, pie, doughnut and whose data is an object containing both labels
and datasets. -/
def chartWellFormedSpec (chart : JValue) : Bool :=
  match chart with
  | JValue.jobj fields =>
    (match fields.lookup ("type") with
     | some t => valid_chart_types.any (fun s => jIsStr t s)
     | none => false) &&
    (match fields.lookup ("data") with
     | some (JValue.jobj dfields) =>
       (dfields.lookup ("labels")).isSome && (dfields.lookup ("datasets")).isSome
     | _ => false)
  | _ => false

/-- Loop-relevant fields of the workflow state for Agent 3. -/
structure HealState where
  self_heal_attempts : Nat
  response_valid : Bool
  response : AnswerResponse
  validation_errors : List ChartErr

/-- Route of the conditional edge after quality check. -/
inductive HealRoute where
  | heal
  | hend
  deriving DecidableEq

/-- should_continue_healing from agent3_generation/subgraph.py. -/
def should_continue_healing (valid : Bool) (attempts : Nat) : HealRoute :=
  if valid then HealRoute.hend
  else if 2 ≤ attempts then HealRoute.hend
  else HealRoute.heal

/-- quality_check_node as a state update: recompute response_valid and
validation_errors from the current charts; self_heal_attempts unchanged. -/
def quality_check_step (st : HealState) : HealState :=
  let qc := quality_check_node st.response
  { st with response_valid := qc.1, validation_errors := qc.2 }

/-- self_heal_node: at the bound, or with nothing to fix, force
response_valid = true; otherwise replace the charts with the LLM repair
(oracle healOracle, indexed by the attempt counter; a JSON-parse failure is
the oracle returning the old charts), increment the counter, and mark the
response invalid so quality check runs again. -/
def self_heal_node (healOracle : Nat → List JValue) (st : HealState) : HealState :=
  if 2 ≤ st.self_heal_attempts then { st with response_valid := true }
  else if st.validation_errors.isEmpty then { st with response_valid := true }
  else
    { st with
      response := { st.response with charts := healOracle st.self_heal_attempts },
      self_heal_attempts := st.self_heal_attempts + 1,
      response_valid := false }

/-- The synthesis - quality check - self-heal loop of the Agent 3 subgraph
(synthesis passes the existing response through unchanged).  Returns the
final state, the number of self_heal invocations, and whether the loop
exited through the router (true) or ran out of fuel (false). -/
def runHealLoop (healOracle : Nat → List JValue) :
    Nat → HealState → HealState × Nat × Bool
  | 0, st => (st, 0, false)
  | fuel + 1, st =>
    let st1 := quality_check_step st
    match should_continue_healing st1.response_valid st1.self_heal_attempts with
    | HealRoute.hend => (st1, 0, true)
    | HealRoute.heal =>
      let st2 := self_heal_node healOracle st1
      let res := runHealLoop healOracle fuel st2
      (res.1, res.2.1 + 1, res.2.2)

/-! ### QueryProcessor year expansion (backend/core/ai/retrieval/query_processor.py) -/

/-- Python `year if year else extracted_year` (0 and None are falsy). -/
def pyOrYear (paramYear extractedYear : Option Int) : Option Int :=
  match paramYear with
  | some y => if y = 0 then extractedYear else some y
  | none => extractedYear

/-- Year-resolution and smart-range-expansion fragment of
QueryProcessor.process_query (expand=True path).  paramYear is the explicit
caller-supplied year; extractedYear, extractedYearRange and
needsYearExpansion come from the LLM extraction oracle.  Returns the pair
(final_year, final_year_range). -/
def process_query_years (paramYear extractedYear : Option Int)
    (extractedYearRange : Option (Int × Int)) (needsYearExpansion : Option Bool) :
    Option Int × Option (Int × Int) :=
  let finalYear := pyOrYear paramYear extractedYear
  let finalYearRange := extractedYearRange
  if needsYearExpansion = some true then
    match finalYearRange with
    | some (a, b) => (finalYear, some (max 2015 (a - 1), min 2025 (b + 1)))
    | none =>
      match finalYear with
      | some y =>
        if y ≠ 0 then (none, some (max 2015 (y - 1), min 2025 (y + 1)))
        else (finalYear, finalYearRange)
      | none => (finalYear, finalYearRange)
  else (finalYear, finalYearRange)

/-! ### General helper lemmas -/

theorem foldl_le_of_step {α : Type} (f : ℝ → α → ℝ) (h : ∀ s t, s ≤ f s t) :
    ∀ (l : List α) (init : ℝ), init ≤ l.foldl f init := by
  intro l
  induction l with
  | nil => intro init; exact le_refl _
  | cons t ts ih => intro init; exact le_trans (h init t) (ih (f init t))

/-! ### Claim C8 -/

/-- C8: in query processing, when the extraction signals needs_year_expansion
= true, a resolved year range (a, b) becomes (max 2015 (a-1), min 2025 (b+1))
and a resolved (non-zero) single year y becomes the range
(max 2015 (y-1), min 2025 (y+1)) with the single year cleared; when
needs_year_expansion is not true, both are returned unchanged. -/
theorem C8_year_expansion (paramYear extractedYear : Option Int)
    (extractedYearRange : Option (Int × Int)) (needs : Option Bool) :
    (needs = some true →
      (∀ a b, extractedYearRange = some (a, b) →
        process_query_years paramYear extractedYear extractedYearRange needs =
          (pyOrYear paramYear extractedYear, some (max 2015 (a - 1), min 2025 (b + 1)))) ∧
      (∀ y, extractedYearRange = none → pyOrYear paramYear extractedYear = some y → y ≠ 0 →
        process_query_years paramYear extractedYear extractedYearRange needs =
          (none, some (max 2015 (y - 1), min 2025 (y + 1))))) ∧
    (needs ≠ some true →
      process_query_years paramYear extractedYear extractedYearRange needs =
        (pyOrYear paramYear extractedYear, extractedYearRange)) := by
  refine ⟨fun hn => ⟨?_, ?_⟩, fun hn => ?_⟩
  · intro a b hr
    subst hn
    simp [process_query_years, hr]
  · intro y hr hy hy0
    subst hn
    simp [process_query_years, hr, hy, hy0]
  · unfold process_query_years
    simp [hn]

/-- Witness for C8 at concrete inputs: the range (2018, 2022) expands to
(2017, 2023); a lone year 2023 becomes (2022, 2024); needs_year_expansion
absent leaves year 2023 untouched. -/
theorem C8_year_expansion_witness :
    process_query_years none none (some (2018, 2022)) (some true) =
      (none, some (2017, 2023)) ∧
    process_query_years none (some 2023) none (some true) =
      (none, some (2022, 2024)) ∧
    process_query_years none (some 2023) none none = (some 2023, none) := by
  refine ⟨?_, ?_, ?_⟩
  · have h := ((C8_year_expansion none none (some (2018, 2022)) (some true)).1 rfl).1
      2018 2022 rfl
    simpa using h
  · have h := ((C8_year_expansion none (some 2023) none (some true)).1 rfl).2
      2023 rfl rfl (by decide)
    simpa using h
  · have h := (C8_year_expansion none (some 2023) none none).2 (by decide)
    simpa using h

/-! ### Claim C7 -/

theorem checkChart_nil_iff (idx : Nat) (chart : JValue) :
    checkChart idx chart = [] ↔ chartWellFormedSpec chart = true := by
  cases chart with
  | jobj fields =>
    rcases htype : fields.lookup ("type") with _ | t
    · simp [checkChart, chartWellFormedSpec, htype]
    · rcases hdata : fields.lookup ("data") with _ | d
      · by_cases htv : valid_chart_types.any (fun s => jIsStr t s) = true <;>
          simp [checkChart, chartWellFormedSpec, htype, hdata, htv]
      · cases d with
        | jobj dfields =>
          by_cases htv : valid_chart_types.any (fun s => jIsStr t s) = true <;>
            by_cases hld : ((dfields.lookup ("labels")).isSome ∧
                (dfields.lookup ("datasets")).isSome) <;>
              simp [checkChart, chartWellFormedSpec, htype, hdata, htv, hld]
        | jnull =>
          by_cases htv : valid_chart_types.any (fun s => jIsStr t s) = true <;>
            simp [checkChart, chartWellFormedSpec, htype, hdata, htv]
        | jbool b =>
          by_cases htv : valid_chart_types.any (fun s => jIsStr t s) = true <;>
            simp [checkChart, chartWellFormedSpec, htype, hdata, htv]
        | jnum q =>
          by_cases htv : valid_chart_types.any (fun s => jIsStr t s) = true <;>
            simp [checkChart, chartWellFormedSpec, htype, hdata, htv]
        | jstr s =>
          by_cases htv : valid_chart_types.any (fun s => jIsStr t s) = true <;>
            simp [checkChart, chartWellFormedSpec, htype, hdata, htv]
        | jarr elems =>
          by_cases htv : valid_chart_types.any (fun s => jIsStr t s) = true <;>
            simp [checkChart, chartWellFormedSpec, htype, hdata, htv]
  | jnull => simp [checkChart, chartWellFormedSpec]
  | jbool b => simp [checkChart, chartWellFormedSpec]
  | jnum q => simp [checkChart, chartWellFormedSpec]
  | jstr s => simp [checkChart, chartWellFormedSpec]
  | jarr elems => simp [checkChart, chartWellFormedSpec]

theorem quality_check_errors_enumFrom_nil_iff (charts : List JValue) :
    ∀ n, ((charts.enumFrom n).map (fun p => checkChart p.1 p.2)).flatten = [] ↔
      ∀ c ∈ charts, chartWellFormedSpec c = true := by
  induction charts with
  | nil => intro n; simp
  | cons c cs ih =>
    intro n
    simp only [List.enumFrom, List.map_cons, List.flatten_cons, List.append_eq_nil,
      List.mem_cons]
    constructor
    · rintro ⟨h1, h2⟩
      intro x hx
      rcases hx with rfl | hx
      · exact (checkChart_nil_iff n x).mp h1
      · exact ((ih (n + 1)).mp h2) x hx
    · intro h
      refine ⟨(checkChart_nil_iff n c).mpr (h c (Or.inl rfl)), (ih (n + 1)).mpr ?_⟩
      intro x hx
      exact h x (Or.inr hx)

/-- C7: quality_check marks a response valid iff every chart is a JSON object
whose type is one of line, bar, pie, doughnut and whose data is an object
containing both labels and datasets; the verdict never depends on the
response text; and the chart (type scatter, data empty object) is judged
invalid with both an invalid-type error and a missing labels/datasets
error. -/
theorem C7_quality_check :
    (∀ (text : String) (charts : List JValue),
      (quality_check_node { text := text, charts := charts }).1 = true ↔
        ∀ c ∈ charts, chartWellFormedSpec c = true) ∧
    (∀ (t1 t2 : String) (charts : List JValue),
      quality_check_node { text := t1, charts := charts } =
        quality_check_node { text := t2, charts := charts }) ∧
    quality_check_errors
        [JValue.jobj [(("type"), JValue.jstr ("scatter")), (("data"), JValue.jobj [])]] =
      [ChartErr.invalidType 0 (JValue.jstr ("scatter")), ChartErr.missingLabelsDatasets 0] := by
  refine ⟨?_, ?_, ?_⟩
  · intro text charts
    have h := quality_check_errors_enumFrom_nil_iff charts 0
    simp only [quality_check_node, quality_check_errors, List.enum] at *
    rw [List.isEmpty_iff]
    exact h
  · intro t1 t2 charts
    rfl
  · rfl

/-! ### Claim C9 -/

theorem deduplicate_chunks_fresh (contentHash : String → Int) :
    ∀ (chunks : List Chunk) (seen : List Int) (c : Chunk),
      c ∈ deduplicate_chunks contentHash seen chunks →
      contentHash (pyTake c.content CONTENT_HASH_LENGTH) ∉ seen := by
  intro chunks
  induction chunks with
  | nil => intro seen c hc; simp [deduplicate_chunks] at hc
  | cons x xs ih =>
    intro seen c hc
    unfold deduplicate_chunks at hc
    by_cases hx : contentHash (pyTake x.content CONTENT_HASH_LENGTH) ∈ seen
    · rw [if_pos hx] at hc
      exact ih seen c hc
    · rw [if_neg hx] at hc
      rcases List.mem_cons.mp hc with rfl | hc2
      · exact hx
      · intro hmem
        exact (ih _ c hc2) (List.mem_cons_of_mem _ hmem)

theorem deduplicate_chunks_pairwise (contentHash : String → Int) :
    ∀ (chunks : List Chunk) (seen : List Int),
      (deduplicate_chunks contentHash seen chunks).Pairwise
        (fun x y => contentHash (pyTake x.content CONTENT_HASH_LENGTH) ≠
          contentHash (pyTake y.content CONTENT_HASH_LENGTH)) := by
  intro chunks
  induction chunks with
  | nil => intro seen; exact List.Pairwise.nil
  | cons x xs ih =>
    intro seen
    unfold deduplicate_chunks
    by_cases hx : contentHash (pyTake x.content CONTENT_HASH_LENGTH) ∈ seen
    · rw [if_pos hx]; exact ih seen
    · rw [if_neg hx]
      refine List.pairwise_cons.mpr ⟨?_, ih _⟩
      intro c hc heq
      have := deduplicate_chunks_fresh contentHash xs _ c hc
      exact this (heq ▸ List.mem_cons_self _ _)

/-- C9: in decomposed-query pooling, the deduplicated (and then score-sorted)
chunk list contains no two chunks whose first CONTENT_HASH_LENGTH (= 200)
content characters hash equally — in particular, two chunks with identical
first-200-character content collapse to one. -/
theorem C9_dedup_no_hash_collision (contentHash : String → Int) (chunks : List Chunk) :
    (pool_decomposed_chunks contentHash chunks).Pairwise
      (fun x y => contentHash (pyTake x.content CONTENT_HASH_LENGTH) ≠
        contentHash (pyTake y.content CONTENT_HASH_LENGTH)) := by
  unfold pool_decomposed_chunks
  have hperm := perm_sortDescBy (fun r : Chunk => r.score)
    (deduplicate_chunks contentHash [] chunks)
  exact (hperm.pairwise_iff (fun h => Ne.symm h)).mpr
    (deduplicate_chunks_pairwise contentHash chunks [])

/-! ### Claim C3 -/

/-- C3, code-bug demonstration.  A single-query run whose validation LLM
verdict repeats the same nonempty gap list (sufficient = false) on every
attempt: attempt 2 produces a gap set identical to attempt 1's nonempty gap
set, yet sufficiency is not forced and the router schedules a third attempt;
the whole loop executes 3 validations.  The node-level logic
(validation_node_fn) does force sufficiency when handed the persisted
previous gap set — but previous_gaps is not an AgentState channel, so the
graph always hands the node an empty previous-gaps value and the
short-circuit is dead code at the graph level. -/
theorem C3_no_progress_dead_code :
    (validation_node (ValidationInput.single false [("missing 2022 data")])
        initialRetrievalState).gaps = [("missing 2022 data")] ∧
    (validation_node (ValidationInput.single false [("missing 2022 data")])
        initialRetrievalState).gaps ≠ [] ∧
    (validation_node (ValidationInput.single false [("missing 2022 data")])
        (refinement_node (validation_node (ValidationInput.single false
          [("missing 2022 data")]) initialRetrievalState))).gaps =
      (validation_node (ValidationInput.single false [("missing 2022 data")])
        initialRetrievalState).gaps ∧
    (validation_node (ValidationInput.single false [("missing 2022 data")])
        (refinement_node (validation_node (ValidationInput.single false
          [("missing 2022 data")]) initialRetrievalState))).retrieval_attempts = 2 ∧
    (validation_node (ValidationInput.single false [("missing 2022 data")])
        (refinement_node (validation_node (ValidationInput.single false
          [("missing 2022 data")]) initialRetrievalState))).retrieval_sufficient = false ∧
    should_continue_retrieval
      (validation_node (ValidationInput.single false [("missing 2022 data")])
        (refinement_node (validation_node (ValidationInput.single false
          [("missing 2022 data")]) initialRetrievalState))).retrieval_sufficient
      (validation_node (ValidationInput.single false [("missing 2022 data")])
        (refinement_node (validation_node (ValidationInput.single false
          [("missing 2022 data")]) initialRetrievalState))).retrieval_attempts =
      RetrievalRoute.refine ∧
    (runRetrievalLoop (fun _ => ValidationInput.single false [("missing 2022 data")]) 5
      initialRetrievalState).2.1 = 3 ∧
    (validation_node_fn (ValidationInput.single false [("missing 2022 data")])
        [("missing 2022 data")]
        (validation_node (ValidationInput.single false [("missing 2022 data")])
          initialRetrievalState)).1.retrieval_sufficient = true := by
  refine ⟨rfl, by decide, rfl, rfl, rfl, rfl, by decide, by decide⟩

/-! ### Claim C6 -/

/-- C6: a missing/empty user_id makes Retriever.retrieve,
QdrantClient.search and QdrantClient.hybrid_search raise a ValueError before
any index search executes (the second component counts index calls), for all
values of the other arguments; the error is never converted into a soft
empty-result success. -/
theorem C6_user_id_required (userId : String) (h : userId = ("")) :
    (∀ queryText raw topK company companies,
      Retriever.retrieve userId queryText raw topK company companies =
        (Except.error ("user_id is required for retrieval"), 0)) ∧
    (∀ raw company companies topK,
      QdrantClient.search userId raw company companies topK =
        (Except.error ("user_id is required for search"), 0)) ∧
    (∀ raw queryText company companies topK alpha,
      QdrantClient.hybrid_search userId raw queryText company companies topK alpha =
        (Except.error ("user_id is required for hybrid_search"), 0)) := by
  subst h
  refine ⟨?_, ?_, ?_⟩
  · intro queryText raw topK company companies
    rfl
  · intro raw company companies topK
    rfl
  · intro raw queryText company companies topK alpha
    rfl

/-- Witness for C6 at concrete arguments. -/
theorem C6_user_id_required_witness :
    Retriever.retrieve ("") ("apple revenue") [] none none [("apple")] =
      (Except.error ("user_id is required for retrieval"), 0) ∧
    QdrantClient.search ("") [] none [] 10 =
      (Except.error ("user_id is required for search"), 0) := by
  refine ⟨?_, ?_⟩
  · exact (C6_user_id_required ("") rfl).1 ("apple revenue") [] none none [("apple")]
  · exact (C6_user_id_required ("") rfl).2.1 [] none [] 10

/-! ### Claim C2 -/

theorem validation_node_attempts (inp : ValidationInput) (st : RetrievalState) :
    (validation_node inp st).retrieval_attempts = st.retrieval_attempts + 1 := by
  cases inp <;> rfl

theorem validation_node_forced (inp : ValidationInput) (st : RetrievalState)
    (h : 3 ≤ st.retrieval_attempts + 1) :
    (validation_node inp st).retrieval_sufficient = true := by
  cases inp <;> simp [validation_node, validation_node_fn, h]

theorem validation_rend_sufficient (inp : ValidationInput) (st : RetrievalState)
    (h : should_continue_retrieval (validation_node inp st).retrieval_sufficient
      (validation_node inp st).retrieval_attempts = RetrievalRoute.rend) :
    (validation_node inp st).retrieval_sufficient = true := by
  by_cases hs : (validation_node inp st).retrieval_sufficient = true
  · exact hs
  · by_cases ha : 3 ≤ st.retrieval_attempts + 1
    · exact validation_node_forced inp st ha
    · exfalso
      rw [validation_node_attempts] at h
      unfold should_continue_retrieval at h
      rw [Bool.not_eq_true] at hs
      rw [hs] at h
      simp only [Bool.false_eq_true, if_false, if_neg ha] at h
      exact RetrievalRoute.noConfusion h

theorem route_refine_iff (s : Bool) (a : Nat) :
    should_continue_retrieval s a = RetrievalRoute.refine ↔ s = false ∧ a < 3 := by
  unfold should_continue_retrieval
  cases s
  · simp only [Bool.false_eq_true, if_false]
    split
    · simp_all
    · simp_all
  · simp

theorem refinement_node_attempts (st : RetrievalState) :
    (refinement_node st).retrieval_attempts = st.retrieval_attempts := by
  unfold refinement_node
  split <;> rfl

theorem runRetrievalLoop_bound (oracle : Nat → ValidationInput) :
    ∀ (fuel : Nat) (st : RetrievalState), max 1 (3 - st.retrieval_attempts) ≤ fuel →
      (runRetrievalLoop oracle fuel st).2.2 = true ∧
      (runRetrievalLoop oracle fuel st).2.1 ≤ max 1 (3 - st.retrieval_attempts) ∧
      (runRetrievalLoop oracle fuel st).1.retrieval_sufficient = true := by
  intro fuel
  induction fuel with
  | zero => intro st h; omega
  | succ fuel ih =>
    intro st h
    cases hroute : should_continue_retrieval
        (validation_node (oracle st.retrieval_attempts) st).retrieval_sufficient
        (validation_node (oracle st.retrieval_attempts) st).retrieval_attempts with
    | rend =>
      refine ⟨?_, ?_, ?_⟩ <;> simp only [runRetrievalLoop, hroute]
      · exact le_max_left 1 _
      · exact validation_rend_sufficient _ st hroute
    | refine =>
      have hr := (route_refine_iff _ _).mp hroute
      rw [validation_node_attempts] at hr
      have ha : st.retrieval_attempts ≤ 1 := by omega
      have ha2 : (refinement_node (validation_node (oracle st.retrieval_attempts) st)).retrieval_attempts
          = st.retrieval_attempts + 1 := by
        rw [refinement_node_attempts, validation_node_attempts]
      have hfuel : max 1 (3 - (refinement_node
          (validation_node (oracle st.retrieval_attempts) st)).retrieval_attempts) ≤ fuel := by
        rw [ha2]; omega
      have hrec := ih _ hfuel
      rw [ha2] at hrec
      refine ⟨?_, ?_, ?_⟩ <;> simp only [runRetrievalLoop, hroute]
      · exact hrec.1
      · have := hrec.2.1
        omega
      · exact hrec.2.2

theorem route_heal_iff (v : Bool) (a : Nat) :
    should_continue_healing v a = HealRoute.heal ↔ v = false ∧ a < 2 := by
  unfold should_continue_healing
  cases v
  · simp only [Bool.false_eq_true, if_false]
    split
    · simp_all
    · simp_all
  · simp

theorem quality_check_step_attempts (st : HealState) :
    (quality_check_step st).self_heal_attempts = st.self_heal_attempts := rfl

theorem runHealLoop_bound (healOracle : Nat → List JValue) :
    ∀ (fuel : Nat) (st : HealState), max 1 (3 - st.self_heal_attempts) ≤ fuel →
      (runHealLoop healOracle fuel st).2.2 = true ∧
      (runHealLoop healOracle fuel st).2.1 ≤ 2 - st.self_heal_attempts := by
  intro fuel
  induction fuel with
  | zero => intro st h; omega
  | succ fuel ih =>
    intro st h
    cases hroute : should_continue_healing (quality_check_step st).response_valid
        (quality_check_step st).self_heal_attempts with
    | hend =>
      refine ⟨?_, ?_⟩ <;> simp only [runHealLoop, hroute]
      omega
    | heal =>
      have hr := (route_heal_iff _ _).mp hroute
      rw [quality_check_step_attempts] at hr
      have hst2 : (self_heal_node healOracle (quality_check_step st)).self_heal_attempts
          = st.self_heal_attempts + 1 := by
        unfold self_heal_node
        rw [if_neg (show ¬ 2 ≤ (quality_check_step st).self_heal_attempts by
          rw [quality_check_step_attempts]; omega)]
        have herr : ((quality_check_step st).validation_errors).isEmpty = false := hr.1
        rw [if_neg (by simp [herr])]
        rfl
      have hfuel : max 1 (3 - (self_heal_node healOracle
          (quality_check_step st)).self_heal_attempts) ≤ fuel := by
        rw [hst2]; omega
      have hrec := ih _ hfuel
      rw [hst2] at hrec
      refine ⟨?_, ?_⟩ <;> simp only [runHealLoop, hroute]
      · exact hrec.1
      · have := hrec.2
        omega

/-- Initial Agent 3 loop state on entering quality_check for a response
(LangGraph defaults: no self-heal attempts yet, response_valid defaults to
true, no recorded errors). -/
def initialHealState (response : AnswerResponse) : HealState :=
  { self_heal_attempts := 0, response_valid := true,
    response := response, validation_errors := [] }

/-- C2 as amended: for every oracle behaviour — including validation
responses that report insufficiency on every attempt and charts that never
become valid — the retrieval validation-refinement loop terminates within 3
validation attempts and on reaching the bound forces retrieval_sufficient =
true; the generation self-heal loop terminates within 2 self-heal attempts,
but on reaching the bound it simply stops healing: the force-accept branch
of self_heal_node is unreachable from the router, so response_valid is
whatever the last quality check computed (false for still-invalid charts)
rather than being forced to true. -/
theorem C2_loop_termination :
    (∀ (oracle : Nat → ValidationInput) (fuel : Nat), 3 ≤ fuel →
      (runRetrievalLoop oracle fuel initialRetrievalState).2.2 = true ∧
      (runRetrievalLoop oracle fuel initialRetrievalState).2.1 ≤ 3 ∧
      (runRetrievalLoop oracle fuel initialRetrievalState).1.retrieval_sufficient = true) ∧
    (∀ (healOracle : Nat → List JValue) (fuel : Nat) (response : AnswerResponse), 3 ≤ fuel →
      (runHealLoop healOracle fuel (initialHealState response)).2.2 = true ∧
      (runHealLoop healOracle fuel (initialHealState response)).2.1 ≤ 2) := by
  constructor
  · intro oracle fuel hfuel
    have h := runRetrievalLoop_bound oracle fuel initialRetrievalState
      (by simp [initialRetrievalState]; omega)
    refine ⟨h.1, ?_, h.2.2⟩
    have := h.2.1
    simp [initialRetrievalState] at this
    omega
  · intro healOracle fuel response hfuel
    have h := runHealLoop_bound healOracle fuel (initialHealState response)
      (by simp [initialHealState]; omega)
    refine ⟨h.1, ?_⟩
    have := h.2
    simp [initialHealState] at this
    omega

/-- Witness for C2 as amended, at fuel 3 with an always-insufficient
validation oracle and an always-empty heal oracle. -/
theorem C2_loop_termination_witness :
    (runRetrievalLoop (fun _ => ValidationInput.single false [("gap")]) 3
      initialRetrievalState).2.1 ≤ 3 ∧
    (runHealLoop (fun _ => []) 3
      (initialHealState { text := ("t"), charts := [] })).2.1 ≤ 2 :=
  ⟨((C2_loop_termination).1 (fun _ => ValidationInput.single false [("gap")]) 3
      (by decide)).2.1,
   ((C2_loop_termination).2 (fun _ => []) 3 { text := ("t"), charts := [] }
      (by decide)).2⟩

/-- The scatter chart of the spec scenario. -/
def scatterChart : JValue :=
  JValue.jobj [(("type"), JValue.jstr ("scatter")), (("data"), JValue.jobj [])]

/-- Counterexample to C2 as stated: running the generation loop on a
response whose chart is the invalid scatter chart, with a heal oracle that
returns the same invalid chart on every attempt, exhausts the 2 self-heal
attempts and exits the loop through the router with response_valid = false —
the loop does not force response_valid = true on reaching the bound. -/
theorem C2_counterexample :
    (runHealLoop (fun _ => [scatterChart]) 5
      (initialHealState { text := ("answer"), charts := [scatterChart] })).1.response_valid
        = false ∧
    (runHealLoop (fun _ => [scatterChart]) 5
      (initialHealState { text := ("answer"), charts := [scatterChart] })).2.1 = 2 ∧
    (runHealLoop (fun _ => [scatterChart]) 5
      (initialHealState { text := ("answer"), charts := [scatterChart] })).2.2 = true :=
  ⟨rfl, rfl, rfl⟩

/-! ### Claims C4 and C10 -/

theorem termBoostOf_pos (s : String) : 0 < termBoostOf s := by
  unfold termBoostOf
  split_ifs <;> norm_num

theorem calculate_bm25_score_nonneg (qt dt : List String) :
    0 ≤ calculate_bm25_score qt dt none none 100.0 1.5 0.75 := by
  unfold calculate_bm25_score
  split
  · norm_num
  · dsimp only
    refine le_trans (by norm_num : (0:ℝ) ≤ 0.0) (foldl_le_of_step _ ?_ _ _)
    intro s t
    dsimp only
    by_cases h : dt.count t = 0
    · rw [if_pos h]
    · rw [if_neg h]
      have hidf : (0:ℝ) ≤ idfOf none none t := Real.log_nonneg (by norm_num)
      have hb := termBoostOf_pos (pyReplace t ("_") (" "))
      have htf : (0:ℝ) ≤ (dt.count t : ℝ) := by positivity
      have hdl : (0:ℝ) ≤ (dt.length : ℝ) / 100.0 := by positivity
      have hnum : (0:ℝ) ≤ idfOf none none t * (dt.count t : ℝ) * (1.5 + 1) *
          termBoostOf (pyReplace t ("_") (" ")) := by positivity
      have hden : (0:ℝ) ≤ (dt.count t : ℝ) + 1.5 * (1 - 0.75 + 0.75 * ((dt.length : ℝ) / 100.0)) := by
        linarith
      have := div_nonneg hnum hden
      linarith

theorem phrase_bonus_nonneg (phrases : List String) (contentLower : String) :
    0 ≤ phrases.foldl
      (fun bonus phrase =>
        if pyContains contentLower phrase then
          if phrase ∈ financial_phrases then bonus + 0.3
          else bonus + ((pySplitWs phrase).length : ℝ) * 0.1
        else bonus) 0.0 := by
  have h := foldl_le_of_step
    (fun bonus phrase =>
      if pyContains contentLower phrase then
        if phrase ∈ financial_phrases then bonus + 0.3
        else bonus + ((pySplitWs phrase).length : ℝ) * 0.1
      else bonus)
    (fun s t => by
      dsimp only
      split
      · split
        · linarith
        · have : (0:ℝ) ≤ ((pySplitWs t).length : ℝ) * 0.1 := by positivity
          linarith
      · exact le_refl s)
    phrases 0.0
  linarith [h]

theorem sigmoid_pos (x : ℝ) : 0 < 1.0 / (1.0 + Real.exp (-x / 10.0)) := by
  have := Real.exp_pos (-x / 10.0)
  positivity

theorem sigmoid_half_le (x : ℝ) (hx : 0 ≤ x) :
    1 / 2 ≤ 1.0 / (1.0 + Real.exp (-x / 10.0)) := by
  have he : Real.exp (-x / 10.0) ≤ 1 := Real.exp_le_one_iff.mpr (by linarith)
  have hp : (0:ℝ) < 1.0 + Real.exp (-x / 10.0) := by
    have := Real.exp_pos (-x / 10.0)
    linarith
  rw [div_le_div_iff₀ (by norm_num) hp]
  linarith

/-- C4: for every query and document, the Keyword Scorer relevance score
lies in the interval from 0 to 1 (this holds in particular for non-empty
queries), and for an empty query string it is exactly 0. -/
theorem C4_score_bounds (query content : String) (usePhrases : Bool) :
    (query ≠ ("") →
      0 ≤ calculate_keyword_relevance query content usePhrases ∧
        calculate_keyword_relevance query content usePhrases ≤ 1) ∧
    (query = ("") → calculate_keyword_relevance query content usePhrases = 0) := by
  constructor
  · intro hq
    by_cases htok : tokenize query = []
    · unfold calculate_keyword_relevance
      rw [if_pos htok]
      norm_num
    · unfold calculate_keyword_relevance
      rw [if_neg htok]
      have hn := sigmoid_pos (calculate_bm25_score (tokenize query) (tokenize content)
        none none 100.0 1.5 0.75)
      have hb : (0:ℝ) ≤ (if usePhrases then
          (extract_phrases query 2 3).foldl
            (fun bonus phrase =>
              if pyContains (pyLower content) phrase then
                if phrase ∈ financial_phrases then bonus + 0.3
                else bonus + ((pySplitWs phrase).length : ℝ) * 0.1
              else bonus) 0.0
        else 0.0) := by
        split
        · exact phrase_bonus_nonneg _ _
        · norm_num
      constructor
      · refine le_min (by norm_num) ?_
        linarith
      · exact le_trans (min_le_left _ _) (by norm_num)
  · intro hq
    subst hq
    have h00 : calculate_keyword_relevance ("") content usePhrases = 0.0 := rfl
    rw [h00]
    norm_num

/-- Witness for C4 at concrete inputs. -/
theorem C4_score_bounds_witness :
    (0 ≤ calculate_keyword_relevance ("revenue") ("apple revenue was high") true ∧
      calculate_keyword_relevance ("revenue") ("apple revenue was high") true ≤ 1) ∧
    calculate_keyword_relevance ("") ("some document") true = 0 :=
  ⟨(C4_score_bounds ("revenue") ("apple revenue was high") true).1 (by decide),
   (C4_score_bounds ("") ("some document") true).2 rfl⟩

/-- C10: whenever tokenization of the query yields at least one token, the
Keyword Scorer relevance score is at least 1/2 for every document (the BM25
sum without corpus statistics is non-negative, the sigmoid maps it to at
least 1/2, the phrase bonus only adds), and a score of 0 occurs only when
the query tokenizes to nothing. -/
theorem C10_score_floor (query content : String) :
    (tokenize query ≠ [] →
      1 / 2 ≤ calculate_keyword_relevance query content true) ∧
    (calculate_keyword_relevance query content true = 0 → tokenize query = []) := by
  have hmain : tokenize query ≠ [] →
      1 / 2 ≤ calculate_keyword_relevance query content true := by
    intro htok
    unfold calculate_keyword_relevance
    rw [if_neg htok]
    have hbm := calculate_bm25_score_nonneg (tokenize query) (tokenize content)
    have hn := sigmoid_half_le _ hbm
    have hb : (0:ℝ) ≤ (extract_phrases query 2 3).foldl
        (fun bonus phrase =>
          if pyContains (pyLower content) phrase then
            if phrase ∈ financial_phrases then bonus + 0.3
            else bonus + ((pySplitWs phrase).length : ℝ) * 0.1
          else bonus) 0.0 := phrase_bonus_nonneg _ _
    simp only [if_true]
    refine le_min (by norm_num) ?_
    linarith
  refine ⟨hmain, ?_⟩
  intro hzero
  by_contra htok
  have := hmain htok
  rw [hzero] at this
  norm_num at this

/-- Witness for C10 at concrete inputs: the query tokenizes non-trivially,
and a document sharing no terms with it still scores at least 1/2. -/
theorem C10_score_floor_witness :
    1 / 2 ≤ calculate_keyword_relevance ("revenue") ("completely unrelated text") true :=
  (C10_score_floor ("revenue") ("completely unrelated text")).1 (by decide)

/-! ### Claim C1 -/

theorem balStep_stuck (rbc : String → List Chunk) (perK topK r : Nat) (st : BalSt)
    (c : String) (h : topK ≤ st.balanced.length) : balStep rbc perK topK r st c = st := by
  unfold balStep
  rw [if_pos h]

theorem rounds_stuck_two (rbc : String → List Chunk) (perK topK : Nat) (l1 l2 : String)
    (rounds : List Nat) (st : BalSt) (h : topK ≤ st.balanced.length) :
    rounds.foldl (fun s r => balStep rbc perK topK r (balStep rbc perK topK r s l1) l2) st
      = st := by
  induction rounds with
  | nil => rfl
  | cons r rs ih =>
    rw [List.foldl_cons, balStep_stuck rbc perK topK r st l1 h,
      balStep_stuck rbc perK topK r st l2 h, ih]

/-- The two-company round-robin invariant of _balance_results: after k full
rounds (k at most 5) with top_k = 10 and per-company share 5, the balanced
list holds exactly k chunks of each company and the taken counters stand at
k. -/
def BalInv (l1 l2 : String) (k : Nat) (st : BalSt) : Prop :=
  st.balanced.length = 2 * k ∧
  st.balanced.countP (fun r => pyLower r.company == l1) = k ∧
  st.balanced.countP (fun r => pyLower r.company == l2) = k ∧
  st.taken l1 = k ∧ st.taken l2 = k

theorem bal_round_two (rbc : String → List Chunk) (l1 l2 : String) (hne : l1 ≠ l2)
    (h1mem : ∀ x ∈ rbc l1, (pyLower x.company == l1) = true)
    (h2mem : ∀ x ∈ rbc l2, (pyLower x.company == l2) = true)
    (hlen1 : 5 ≤ (rbc l1).length) (hlen2 : 5 ≤ (rbc l2).length)
    (k : Nat) (hk : k < 5) (st : BalSt) (hinv : BalInv l1 l2 k st) :
    BalInv l1 l2 (k + 1) (balStep rbc 5 10 k (balStep rbc 5 10 k st l1) l2) := by
  obtain ⟨hblen, hc1, hc2, ht1, ht2⟩ := hinv
  have hk1 : k < (rbc l1).length := by omega
  have hk2 : k < (rbc l2).length := by omega
  have hch1 : (rbc l1)[k]? = some ((rbc l1).get ⟨k, hk1⟩) := by
    rw [List.getElem?_eq_getElem hk1]
    rfl
  have hch2 : (rbc l2)[k]? = some ((rbc l2).get ⟨k, hk2⟩) := by
    rw [List.getElem?_eq_getElem hk2]
    rfl
  have hp1 : (pyLower ((rbc l1).get ⟨k, hk1⟩).company == l1) = true :=
    h1mem _ (List.get_mem (rbc l1) k hk1)
  have hp2 : (pyLower ((rbc l2).get ⟨k, hk2⟩).company == l2) = true :=
    h2mem _ (List.get_mem (rbc l2) k hk2)
  have hp12 : (pyLower ((rbc l2).get ⟨k, hk2⟩).company == l1) = false := by
    have heq : pyLower ((rbc l2).get ⟨k, hk2⟩).company = l2 := eq_of_beq hp2
    rw [heq]
    exact beq_eq_false_iff_ne.mpr (fun h => hne h.symm)
  have hp21 : (pyLower ((rbc l1).get ⟨k, hk1⟩).company == l2) = false := by
    have heq : pyLower ((rbc l1).get ⟨k, hk1⟩).company = l1 := eq_of_beq hp1
    rw [heq]
    exact beq_eq_false_iff_ne.mpr hne
  -- first step: company l1 takes its k-th chunk
  have hstep1 : balStep rbc 5 10 k st l1 =
      { balanced := st.balanced ++ [(rbc l1).get ⟨k, hk1⟩],
        taken := fun c => if c = l1 then st.taken l1 + 1 else st.taken c,
        remainder := st.remainder } := by
    unfold balStep
    rw [if_neg (show ¬ 10 ≤ st.balanced.length by omega), hch1]
    dsimp only
    rw [if_pos (show st.taken l1 < 5 by omega)]
  -- second step: company l2 takes its k-th chunk
  have hstep2 : balStep rbc 5 10 k (balStep rbc 5 10 k st l1) l2 =
      { balanced := st.balanced ++ [(rbc l1).get ⟨k, hk1⟩] ++ [(rbc l2).get ⟨k, hk2⟩],
        taken := fun c => if c = l2 then st.taken l2 + 1
          else if c = l1 then st.taken l1 + 1 else st.taken c,
        remainder := st.remainder } := by
    rw [hstep1]
    unfold balStep
    dsimp only
    rw [if_neg (show ¬ 10 ≤ (st.balanced ++ [(rbc l1).get ⟨k, hk1⟩]).length by
      simp only [List.length_append, List.length_cons, List.length_nil]
      omega), hch2]
    dsimp only
    rw [if_pos (show (if l2 = l1 then st.taken l1 + 1 else st.taken l2) < 5 by
      rw [if_neg (fun h : l2 = l1 => hne h.symm)]
      omega)]
    simp only [BalSt.mk.injEq]
    refine ⟨trivial, ?_, trivial⟩
    funext c
    by_cases hcl2 : c = l2
    · rw [hcl2, if_pos rfl, if_pos rfl, if_neg (fun h : l2 = l1 => hne h.symm)]
    · rw [if_neg hcl2, if_neg hcl2]
  rw [hstep2]
  refine ⟨?_, ?_, ?_, ?_, ?_⟩
  · simp only [List.length_append, List.length_cons, List.length_nil, hblen]
    omega
  · simp only [List.countP_append, List.countP_cons, List.countP_nil, hc1, hp1, hp12]
    norm_num
  · simp only [List.countP_append, List.countP_cons, List.countP_nil, hc2, hp2, hp21]
    norm_num
  · show (if l1 = l2 then st.taken l2 + 1
        else if l1 = l1 then st.taken l1 + 1 else st.taken l1) = k + 1
    rw [if_neg hne, if_pos rfl, ht1]
  · show (if l2 = l2 then st.taken l2 + 1
        else if l2 = l1 then st.taken l1 + 1 else st.taken l2) = k + 1
    rw [if_pos rfl, ht2]

theorem bal_rounds_two (rbc : String → List Chunk) (l1 l2 : String) (hne : l1 ≠ l2)
    (h1mem : ∀ x ∈ rbc l1, (pyLower x.company == l1) = true)
    (h2mem : ∀ x ∈ rbc l2, (pyLower x.company == l2) = true)
    (hlen1 : 5 ≤ (rbc l1).length) (hlen2 : 5 ≤ (rbc l2).length) :
    ∀ k, k ≤ 5 →
      BalInv l1 l2 k ((List.range k).foldl
        (fun st r => balStep rbc 5 10 r (balStep rbc 5 10 r st l1) l2)
        { balanced := [], taken := fun _ => 0, remainder := 0 }) := by
  intro k
  induction k with
  | zero =>
    intro _
    exact ⟨rfl, rfl, rfl, rfl, rfl⟩
  | succ k ih =>
    intro hk5
    rw [List.range_succ, List.foldl_append, List.foldl_cons, List.foldl_nil]
    exact bal_round_two rbc l1 l2 hne h1mem h2mem hlen1 hlen2 k (by omega) _
      (ih (by omega))

/-- C1: for a query targeting exactly two (distinct, lowercased) companies
with top_k = 10, the balanced result set produced by _balance_results
contains exactly 5 chunks from each company whenever each company has at
least 5 candidate chunks available after filtering. -/
theorem C1_balance_invariant (results : List Chunk) (c1 c2 : String)
    (hne : pyLower c1 ≠ pyLower c2)
    (h1 : 5 ≤ (results.filter (fun r => pyLower r.company == pyLower c1)).length)
    (h2 : 5 ≤ (results.filter (fun r => pyLower r.company == pyLower c2)).length) :
    (balance_results results [c1, c2] 10).countP
        (fun r => pyLower r.company == pyLower c1) = 5 ∧
    (balance_results results [c1, c2] 10).countP
        (fun r => pyLower r.company == pyLower c2) = 5 ∧
    (balance_results results [c1, c2] 10).length = 10 := by
  unfold balance_results
  simp only [List.map_cons, List.map_nil, List.length_cons, List.length_nil]
  norm_num
  set rbc : String → List Chunk := fun c => sortDescBy (fun r => r.score)
    (results.filter (fun r => pyLower r.company == c)) with hrbc
  set l1 := pyLower c1 with hl1
  set l2 := pyLower c2 with hl2
  have hlen1 : 5 ≤ (rbc l1).length := by
    rw [hrbc]
    simp only [length_sortDescBy]
    exact h1
  have hlen2 : 5 ≤ (rbc l2).length := by
    rw [hrbc]
    simp only [length_sortDescBy]
    exact h2
  have h1mem : ∀ x ∈ rbc l1, (pyLower x.company == l1) = true := by
    intro x hx
    rw [hrbc] at hx
    simp only [mem_sortDescBy] at hx
    exact (List.mem_filter.mp hx).2
  have h2mem : ∀ x ∈ rbc l2, (pyLower x.company == l2) = true := by
    intro x hx
    rw [hrbc] at hx
    simp only [mem_sortDescBy] at hx
    exact (List.mem_filter.mp hx).2
  have hinv5 := bal_rounds_two rbc l1 l2 hne h1mem h2mem hlen1 hlen2 5 (le_refl 5)
  have hstuck : (List.range ((rbc l1).length ⊔ (rbc l2).length)).foldl
      (fun st r => balStep rbc 5 10 r (balStep rbc 5 10 r st l1) l2)
      { balanced := [], taken := fun _ => 0, remainder := 0 } =
      (List.range 5).foldl
        (fun st r => balStep rbc 5 10 r (balStep rbc 5 10 r st l1) l2)
        { balanced := [], taken := fun _ => 0, remainder := 0 } := by
    rw [show (rbc l1).length ⊔ (rbc l2).length
        = 5 + ((rbc l1).length ⊔ (rbc l2).length - 5) by omega,
      List.range_add, List.foldl_append]
    exact rounds_stuck_two rbc 5 10 l1 l2 _ _ (by rw [hinv5.1])
  rw [hstuck]
  have h10 : ((List.range 5).foldl
      (fun st r => balStep rbc 5 10 r (balStep rbc 5 10 r st l1) l2)
      { balanced := [], taken := fun _ => 0, remainder := 0 }).balanced.length = 10 :=
    hinv5.1
  rw [List.take_of_length_le (le_of_eq h10)]
  exact ⟨hinv5.2.1, hinv5.2.2.1, le_of_eq h10.symm⟩

/-- Witness for C1: two companies with exactly 5 candidates each yield 5
chunks per company in the balanced output. -/
theorem C1_balance_invariant_witness :
    (pyLower ("apple") ≠ pyLower ("microsoft") ∧
      5 ≤ ((List.replicate 5 ({ content := ("x"), company := ("apple"), score := 0 } : Chunk) ++
        List.replicate 5 ({ content := ("y"), company := ("microsoft"), score := 0 } : Chunk)).filter
          (fun r => pyLower r.company == pyLower ("apple"))).length) ∧
    (balance_results
        (List.replicate 5 ({ content := ("x"), company := ("apple"), score := 0 } : Chunk) ++
          List.replicate 5 ({ content := ("y"), company := ("microsoft"), score := 0 } : Chunk))
        [("apple"), ("microsoft")] 10).countP
      (fun r => pyLower r.company == pyLower ("apple")) = 5 := by
  refine ⟨⟨by decide, by decide⟩, ?_⟩
  exact (C1_balance_invariant
    (List.replicate 5 ({ content := ("x"), company := ("apple"), score := 0 } : Chunk) ++
      List.replicate 5 ({ content := ("y"), company := ("microsoft"), score := 0 } : Chunk))
    ("apple") ("microsoft") (by decide) (by decide) (by decide)).1

/-! ### Claim C5 -/

theorem sortDescBy_of_sorted {α : Type} (key : α → ℝ) (l : List α)
    (h : l.Pairwise (fun a b => key b ≤ key a)) : sortDescBy key l = l := by
  induction l with
  | nil => rfl
  | cons x xs ih =>
    have hx := (List.pairwise_cons.mp h).1
    have hxs := (List.pairwise_cons.mp h).2
    show insertDescBy key x (sortDescBy key xs) = x :: xs
    rw [ih hxs]
    cases xs with
    | nil => rfl
    | cons y ys =>
      unfold insertDescBy
      rw [if_pos (hx y (List.mem_cons_self y ys))]

/-- The ok-payload of a retriever result (empty list on error). -/
def okChunks (r : Except String (List (Chunk × ℝ)) × Nat) : List (Chunk × ℝ) :=
  match r.1 with
  | Except.ok l => l
  | Except.error _ => []

/-- C5 as amended: Retriever.retrieve re-sorts the balanced list by the
blended 0.6/0.4 rerank score, so its final output is globally sorted in
descending rerank-score order — in particular each company's subset appears
in descending rerank order, but the round-robin cross-company order of
_balance_results is not preserved (the counterexample exhibits this);
only _balance_results itself returns without re-sorting. -/
theorem C5_rerank_orders_output (userId queryText : String) (raw : List Chunk)
    (topK : Option Nat) (company : Option String) (companies : List String) :
    (okChunks (Retriever.retrieve userId queryText raw topK company companies)).Pairwise
      (fun x y => y.2 ≤ x.2) ∧
    ∀ c, ((okChunks (Retriever.retrieve userId queryText raw topK company
        companies)).filter (fun p => pyLower p.1.company == c)).Pairwise
      (fun x y => y.2 ≤ x.2) := by
  unfold Retriever.retrieve
  by_cases hu : userId.isEmpty
  · rw [if_pos hu]
    exact ⟨List.Pairwise.nil, fun c => List.Pairwise.nil⟩
  · rw [if_neg hu]
    rcases hh : QdrantClient.hybrid_search userId raw queryText company companies
        TOP_K_INITIAL HYBRID_SEARCH_ALPHA with ⟨e | rs, n⟩
    · exact ⟨List.Pairwise.nil, fun c => List.Pairwise.nil⟩
    · have hsorted : (rerank_with_keywords rs queryText).Pairwise
          (fun x y : Chunk × ℝ => y.2 ≤ x.2) := by
        unfold rerank_with_keywords
        exact pairwise_sortDescBy _ _
      have htake : ((rerank_with_keywords rs queryText).take
          (topK.getD TOP_K_FINAL)).Pairwise (fun x y : Chunk × ℝ => y.2 ≤ x.2) :=
        hsorted.sublist (List.take_sublist _ _)
      exact ⟨htake, fun c => htake.sublist (List.filter_sublist _)⟩

/-- Constructor shorthand for concrete chunks. -/
noncomputable def ch (content company : String) (score : ℝ) : Chunk :=
  { content := content, company := company, score := score }

/-- The concrete index response of the C5 counterexample: four chunks of
company a (raw scores 2, 2, 0, 0) and five chunks of company b (raw scores
2, 2, 2, 2, 0), with pairwise distinct contents sharing no token with the
query. -/
noncomputable def c5Raw : List Chunk :=
  [ch ("one") ("a") 2, ch ("two") ("a") 2, ch ("three") ("a") 0, ch ("four") ("a") 0,
   ch ("five") ("b") 2, ch ("six") ("b") 2, ch ("seven") ("b") 2, ch ("eight") ("b") 2,
   ch ("nine") ("b") 0]

/-- A query token that appears in none of the documents scores the sigmoid
of a zero BM25 sum with no phrase bonus: exactly one half. -/
theorem kw_zzz (content : String) (h : (tokenize content).count ("zzz") = 0) :
    calculate_keyword_relevance ("zzz") content true = 1 / 2 := by
  have htq : tokenize ("zzz") = [("zzz")] := by decide
  have hbm : calculate_bm25_score (tokenize ("zzz")) (tokenize content)
      none none 100.0 1.5 0.75 = 0 := by
    rw [htq]
    unfold calculate_bm25_score
    by_cases hc : tokenize content = []
    · rw [if_pos (Or.inr hc)]
      norm_num
    · rw [if_neg (by simp [hc])]
      have hkeys : pyDictKeys [("zzz")] = [("zzz")] := rfl
      rw [hkeys]
      simp only [List.foldl_cons, List.foldl_nil]
      rw [h]
      norm_num
  have hph : extract_phrases ("zzz") 2 3 = [] := by decide
  unfold calculate_keyword_relevance
  rw [if_neg (by rw [htq]; exact (by decide : ([("zzz")] : List String) ≠ []))]
  rw [hbm, hph]
  simp only [List.foldl_nil, if_true]
  rw [show (-(0:ℝ) / 10.0) = 0 by norm_num, Real.exp_zero]
  norm_num

/-- Square-root evaluation helper: supply the square of the claimed value. -/
theorem sqrt_eq_of_sq (a b : ℝ) (hb : 0 ≤ b) (h : b ^ 2 = a) : Real.sqrt a = b := by
  rw [← h]
  exact Real.sqrt_sq hb

/-- Evaluation rule for normGroup: supply the mean and the (positive) standard
deviation of the group and normGroup maps each score to its z-score. -/
theorem normGroup_eval (g : List Chunk) (m s : ℝ) (hs : 0 < s)
    (hm : (g.map (fun r => r.score)).sum / ((g.map (fun r => r.score)).length : ℝ) = m)
    (hstd : Real.sqrt (((g.map (fun r => r.score)).map (fun x => (x - m) ^ 2)).sum /
      ((g.map (fun r => r.score)).length : ℝ)) = s) :
    normGroup g = g.map (fun r => { r with score := (r.score - m) / s }) := by
  cases g with
  | nil => rfl
  | cons x xs =>
    unfold normGroup
    dsimp only
    rw [hm, hstd, if_pos hs]

/-- balStep with the per-company sorted list already substituted in
(proof device: balStep applies its company-list function only at the
round-robin company, so once that application is rewritten the whole
round-robin fold becomes a closed computation). -/
noncomputable def balStepL (A : List Chunk) (perCompanyK topK roundIdx : Nat)
    (st : BalSt) (company : String) : BalSt :=
  if topK ≤ st.balanced.length then st
  else
    match A[roundIdx]? with
    | none => st
    | some chunk =>
      if st.taken company < perCompanyK then
        { balanced := st.balanced ++ [chunk],
          taken := fun c => if c = company then st.taken company + 1 else st.taken c,
          remainder := st.remainder }
      else if 0 < st.remainder ∧ st.taken company = perCompanyK then
        { balanced := st.balanced ++ [chunk],
          taken := fun c => if c = company then st.taken company + 1 else st.taken c,
          remainder := st.remainder - 1 }
      else st

theorem balStep_eqL (rbc : String → List Chunk) (c : String) (A : List Chunk)
    (hA : rbc c = A) (perK topK k : Nat) (st : BalSt) :
    balStep rbc perK topK k st c = balStepL A perK topK k st c := by
  unfold balStep balStepL
  rw [hA]

/-- Normalized chunks after the first (and equally the second) per-company
z-score normalization of the counterexample run. -/
noncomputable def c5Norm1 : List Chunk :=
  [ch ("one") ("a") 1, ch ("two") ("a") 1, ch ("three") ("a") (-1), ch ("four") ("a") (-1),
   ch ("five") ("b") 0.5, ch ("six") ("b") 0.5, ch ("seven") ("b") 0.5, ch ("eight") ("b") 0.5,
   ch ("nine") ("b") (-2)]

/-- The round-robin balanced list of the counterexample run: companies
alternate a, b, a, b, ... -/
noncomputable def c5Sem : List Chunk :=
  [ch ("one") ("a") 1, ch ("five") ("b") 0.5, ch ("two") ("a") 1, ch ("six") ("b") 0.5,
   ch ("three") ("a") (-1), ch ("seven") ("b") 0.5, ch ("four") ("a") (-1),
   ch ("eight") ("b") 0.5, ch ("nine") ("b") (-2)]

/-- Hybrid-combined scores (0.7 x clamped z-score + 0.3 x keyword 1/2). -/
noncomputable def c5Comb : List Chunk :=
  [ch ("one") ("a") 0.85, ch ("five") ("b") 0.5, ch ("two") ("a") 0.85, ch ("six") ("b") 0.5,
   ch ("three") ("a") 0.15, ch ("seven") ("b") 0.5, ch ("four") ("a") 0.15,
   ch ("eight") ("b") 0.5, ch ("nine") ("b") 0.15]

theorem c5_normgroup_a1 : normGroup [ch ("one") ("a") 2, ch ("two") ("a") 2,
    ch ("three") ("a") 0, ch ("four") ("a") 0] =
    [ch ("one") ("a") 1, ch ("two") ("a") 1,
     ch ("three") ("a") (-1), ch ("four") ("a") (-1)] := by
  rw [normGroup_eval _ 1 1 (by norm_num) (by simp [ch]; norm_num)
    (by apply sqrt_eq_of_sq _ _ (by norm_num); simp [ch]; norm_num)]
  simp [ch]
  norm_num

theorem c5_normgroup_b1 : normGroup [ch ("five") ("b") 2, ch ("six") ("b") 2,
    ch ("seven") ("b") 2, ch ("eight") ("b") 2, ch ("nine") ("b") 0] =
    [ch ("five") ("b") 0.5, ch ("six") ("b") 0.5,
     ch ("seven") ("b") 0.5, ch ("eight") ("b") 0.5, ch ("nine") ("b") (-2)] := by
  rw [normGroup_eval _ 1.6 0.8 (by norm_num) (by simp [ch]; norm_num)
    (by apply sqrt_eq_of_sq _ _ (by norm_num); simp [ch]; norm_num)]
  simp [ch]
  norm_num

theorem c5_normgroup_a2 : normGroup [ch ("one") ("a") 0.85, ch ("two") ("a") 0.85,
    ch ("three") ("a") 0.15, ch ("four") ("a") 0.15] =
    [ch ("one") ("a") 1, ch ("two") ("a") 1,
     ch ("three") ("a") (-1), ch ("four") ("a") (-1)] := by
  rw [normGroup_eval _ 0.5 0.35 (by norm_num) (by simp [ch]; norm_num)
    (by apply sqrt_eq_of_sq _ _ (by norm_num); simp [ch]; norm_num)]
  simp [ch]
  norm_num

theorem c5_normgroup_b2 : normGroup [ch ("five") ("b") 0.5, ch ("six") ("b") 0.5,
    ch ("seven") ("b") 0.5, ch ("eight") ("b") 0.5, ch ("nine") ("b") 0.15] =
    [ch ("five") ("b") 0.5, ch ("six") ("b") 0.5,
     ch ("seven") ("b") 0.5, ch ("eight") ("b") 0.5, ch ("nine") ("b") (-2)] := by
  rw [normGroup_eval _ 0.43 0.14 (by norm_num) (by simp [ch]; norm_num)
    (by apply sqrt_eq_of_sq _ _ (by norm_num); simp [ch]; norm_num)]
  simp [ch]
  norm_num

theorem c5_normalize1 : normalize_scores_per_company c5Raw [("a"), ("b")] = c5Norm1 := by
  unfold normalize_scores_per_company
  dsimp only
  rw [show pyDictKeys (List.map pyLower [("a"), ("b")]) = [("a"), ("b")] from rfl]
  simp only [List.map_cons, List.map_nil]
  rw [show c5Raw.filter (fun r => pyLower r.company == ("a")) =
      [ch ("one") ("a") 2, ch ("two") ("a") 2, ch ("three") ("a") 0, ch ("four") ("a") 0]
      from rfl,
    show c5Raw.filter (fun r => pyLower r.company == ("b")) =
      [ch ("five") ("b") 2, ch ("six") ("b") 2, ch ("seven") ("b") 2, ch ("eight") ("b") 2,
       ch ("nine") ("b") 0] from rfl,
    c5_normgroup_a1, c5_normgroup_b1]
  rfl

theorem c5_normalize2 : normalize_scores_per_company c5Comb [("a"), ("b")] = c5Norm1 := by
  unfold normalize_scores_per_company
  dsimp only
  rw [show pyDictKeys (List.map pyLower [("a"), ("b")]) = [("a"), ("b")] from rfl]
  simp only [List.map_cons, List.map_nil]
  rw [show c5Comb.filter (fun r => pyLower r.company == ("a")) =
      [ch ("one") ("a") 0.85, ch ("two") ("a") 0.85, ch ("three") ("a") 0.15,
       ch ("four") ("a") 0.15] from rfl,
    show c5Comb.filter (fun r => pyLower r.company == ("b")) =
      [ch ("five") ("b") 0.5, ch ("six") ("b") 0.5, ch ("seven") ("b") 0.5,
       ch ("eight") ("b") 0.5, ch ("nine") ("b") 0.15] from rfl,
    c5_normgroup_a2, c5_normgroup_b2]
  rfl

theorem c5_sort_a : sortDescBy (fun r : Chunk => r.score)
    (c5Norm1.filter (fun r => pyLower r.company == ("a"))) =
    [ch ("one") ("a") 1, ch ("two") ("a") 1, ch ("three") ("a") (-1), ch ("four") ("a") (-1)] := by
  rw [show c5Norm1.filter (fun r => pyLower r.company == ("a")) =
    [ch ("one") ("a") 1, ch ("two") ("a") 1, ch ("three") ("a") (-1), ch ("four") ("a") (-1)]
    from rfl]
  apply sortDescBy_of_sorted
  norm_num [ch, List.pairwise_cons]

theorem c5_sort_b : sortDescBy (fun r : Chunk => r.score)
    (c5Norm1.filter (fun r => pyLower r.company == ("b"))) =
    [ch ("five") ("b") 0.5, ch ("six") ("b") 0.5, ch ("seven") ("b") 0.5,
     ch ("eight") ("b") 0.5, ch ("nine") ("b") (-2)] := by
  rw [show c5Norm1.filter (fun r => pyLower r.company == ("b")) =
    [ch ("five") ("b") 0.5, ch ("six") ("b") 0.5, ch ("seven") ("b") 0.5,
     ch ("eight") ("b") 0.5, ch ("nine") ("b") (-2)] from rfl]
  apply sortDescBy_of_sorted
  norm_num [ch, List.pairwise_cons]

theorem c5_balance_90 : balance_results c5Norm1 [("a"), ("b")] 90 = c5Sem := by
  have hA := balStep_eqL (fun c => sortDescBy (fun r : Chunk => r.score)
    (c5Norm1.filter (fun r => pyLower r.company == c))) ("a") _ c5_sort_a
  have hB := balStep_eqL (fun c => sortDescBy (fun r : Chunk => r.score)
    (c5Norm1.filter (fun r => pyLower r.company == c))) ("b") _ c5_sort_b
  unfold balance_results
  simp only [List.map_cons, List.map_nil, List.foldl_cons, List.foldl_nil,
    show pyLower ("a") = ("a") from rfl, show pyLower ("b") = ("b") from rfl,
    hA, hB, c5_sort_a, c5_sort_b]
  rfl

theorem c5_balance_30 : balance_results c5Norm1 [("a"), ("b")] 30 = c5Sem := by
  have hA := balStep_eqL (fun c => sortDescBy (fun r : Chunk => r.score)
    (c5Norm1.filter (fun r => pyLower r.company == c))) ("a") _ c5_sort_a
  have hB := balStep_eqL (fun c => sortDescBy (fun r : Chunk => r.score)
    (c5Norm1.filter (fun r => pyLower r.company == c))) ("b") _ c5_sort_b
  unfold balance_results
  simp only [List.map_cons, List.map_nil, List.foldl_cons, List.foldl_nil,
    show pyLower ("a") = ("a") from rfl, show pyLower ("b") = ("b") from rfl,
    hA, hB, c5_sort_a, c5_sort_b]
  rfl

theorem c5_search : QdrantClient.search ("user1") c5Raw none [("a"), ("b")] 90 =
    (Except.ok c5Sem, 1) := by
  unfold QdrantClient.search
  rw [if_neg (by decide : ¬ (("user1").isEmpty = true))]
  dsimp only
  rw [if_pos (by decide : ([("a"), ("b")] : List String) ≠ [])]
  rw [show c5Raw.filter (fun r => pyLower r.company ∈ [("a"), ("b")].map pyLower) = c5Raw
      from rfl]
  rw [if_pos (by decide : 1 < (targetCompaniesOf none [("a"), ("b")]).length)]
  rw [show targetCompaniesOf none [("a"), ("b")] = [("a"), ("b")] from rfl]
  rw [c5_normalize1, c5_balance_90]

/-- The hybrid alpha-combination map evaluated on the balanced list. -/
theorem c5_comb_map : c5Sem.map (fun chunk =>
    { chunk with score := HYBRID_SEARCH_ALPHA *
        (if chunk.score < 0 then max 0.0 (min 1.0 ((chunk.score + 1) / 2)) else chunk.score) +
      (1 - HYBRID_SEARCH_ALPHA) * calculate_keyword_relevance ("zzz") chunk.content true })
    = c5Comb := by
  have k1 := kw_zzz ("one") (by decide)
  have k2 := kw_zzz ("two") (by decide)
  have k3 := kw_zzz ("three") (by decide)
  have k4 := kw_zzz ("four") (by decide)
  have k5 := kw_zzz ("five") (by decide)
  have k6 := kw_zzz ("six") (by decide)
  have k7 := kw_zzz ("seven") (by decide)
  have k8 := kw_zzz ("eight") (by decide)
  have k9 := kw_zzz ("nine") (by decide)
  simp only [c5Sem, c5Comb, ch, List.map_cons, List.map_nil]
  rw [k1, k2, k3, k4, k5, k6, k7, k8, k9]
  norm_num [HYBRID_SEARCH_ALPHA]

theorem c5_hybrid : QdrantClient.hybrid_search ("user1") c5Raw ("zzz") none [("a"), ("b")]
    TOP_K_INITIAL HYBRID_SEARCH_ALPHA = (Except.ok c5Sem, 1) := by
  unfold QdrantClient.hybrid_search
  rw [if_neg (by decide : ¬ (("user1").isEmpty = true))]
  dsimp only
  rw [show (if 1 < (targetCompaniesOf none [("a"), ("b")]).length then TOP_K_INITIAL * 3
    else TOP_K_INITIAL) = 90 from by decide]
  rw [c5_search]
  dsimp only
  rw [if_neg (by decide : ¬ (("zzz").isEmpty = true))]
  rw [if_pos (by decide : 1 < (targetCompaniesOf none [("a"), ("b")]).length)]
  rw [c5_comb_map]
  rw [show targetCompaniesOf none [("a"), ("b")] = [("a"), ("b")] from rfl,
    show TOP_K_INITIAL = 30 from rfl]
  rw [c5_normalize2, c5_balance_30]

/-- The rerank map-and-sort evaluated on the balanced list: re-sorted by the
blended score, company a rises to the top. -/
theorem c5_rerank : rerank_with_keywords c5Sem ("zzz") =
    [(ch ("one") ("a") 1, 0.8), (ch ("two") ("a") 1, 0.8),
     (ch ("five") ("b") 0.5, 0.5), (ch ("six") ("b") 0.5, 0.5),
     (ch ("seven") ("b") 0.5, 0.5), (ch ("eight") ("b") 0.5, 0.5),
     (ch ("three") ("a") (-1), 0.2), (ch ("four") ("a") (-1), 0.2),
     (ch ("nine") ("b") (-2), 0.2)] := by
  have k1 := kw_zzz ("one") (by decide)
  have k2 := kw_zzz ("two") (by decide)
  have k3 := kw_zzz ("three") (by decide)
  have k4 := kw_zzz ("four") (by decide)
  have k5 := kw_zzz ("five") (by decide)
  have k6 := kw_zzz ("six") (by decide)
  have k7 := kw_zzz ("seven") (by decide)
  have k8 := kw_zzz ("eight") (by decide)
  have k9 := kw_zzz ("nine") (by decide)
  have hmap : c5Sem.map (fun result =>
      (result, 0.6 * (if result.score < 0 then max 0.0 (min 1.0 ((result.score + 1) / 2))
        else result.score) + 0.4 * calculate_keyword_relevance ("zzz") result.content true)) =
      [(ch ("one") ("a") 1, 0.8), (ch ("five") ("b") 0.5, 0.5),
       (ch ("two") ("a") 1, 0.8), (ch ("six") ("b") 0.5, 0.5),
       (ch ("three") ("a") (-1), 0.2), (ch ("seven") ("b") 0.5, 0.5),
       (ch ("four") ("a") (-1), 0.2), (ch ("eight") ("b") 0.5, 0.5),
       (ch ("nine") ("b") (-2), 0.2)] := by
    simp only [c5Sem, ch, List.map_cons, List.map_nil]
    rw [k1, k2, k3, k4, k5, k6, k7, k8, k9]
    norm_num
  unfold rerank_with_keywords
  rw [hmap]
  unfold sortDescBy
  norm_num [insertDescBy, ch]

theorem c5_retrieve : Retriever.retrieve ("user1") ("zzz") c5Raw (some 4) none [("a"), ("b")] =
    (Except.ok [(ch ("one") ("a") 1, 0.8), (ch ("two") ("a") 1, 0.8),
      (ch ("five") ("b") 0.5, 0.5), (ch ("six") ("b") 0.5, 0.5)], 1) := by
  unfold Retriever.retrieve
  rw [if_neg (by decide : ¬ (("user1").isEmpty = true))]
  dsimp only
  rw [c5_hybrid]
  dsimp only
  rw [c5_rerank]
  rfl

/-- C5 counterexample: a concrete two-company retrieval in which hybrid_search
returns a round-robin balanced list interleaving companies a, b, a, b, ... but
Retriever.retrieve then re-sorts that list by the blended rerank score, so the
final result starts a, a, b, b — the balanced cross-company order is NOT
preserved through rerank, refuting the claim that balancing is never followed
by a re-sort by absolute score. -/
theorem C5_counterexample :
    QdrantClient.hybrid_search ("user1") c5Raw ("zzz") none [("a"), ("b")]
      TOP_K_INITIAL HYBRID_SEARCH_ALPHA = (Except.ok c5Sem, 1) ∧
    c5Sem.map (fun r => r.company) =
      [("a"), ("b"), ("a"), ("b"), ("a"), ("b"), ("a"), ("b"), ("b")] ∧
    (okChunks (Retriever.retrieve ("user1") ("zzz") c5Raw (some 4) none [("a"), ("b")])).map
      (fun p => p.1.company) = [("a"), ("a"), ("b"), ("b")] ∧
    ¬ ((okChunks (Retriever.retrieve ("user1") ("zzz") c5Raw (some 4) none
      [("a"), ("b")])).map (fun p => p.1.company) = (c5Sem.map (fun r => r.company)).take 4) := by
  refine ⟨c5_hybrid, rfl, ?_, ?_⟩
  · rw [c5_retrieve]
    rfl
  · rw [c5_retrieve]
    decide

end FinLens
